import Mathlib

/-!
Verification development for the AirPlay HLS video session subsystem
(uxplay: lib/airplay_video.c, lib/http_handlers.h, build/include/raop.h).

Modelling conventions:
* C strings are modelled as `List Char` (abbreviated `Str`); the strings
  handled here contain no interior NUL bytes.
* `strstr`/`strchr` are modelled by `firstOcc`, returning the index of the
  first occurrence of a pattern (or `none` for a NULL result).
* Assertion failures, `exit(1)` and undefined behaviour (NULL dereference,
  out-of-bounds arithmetic) are modelled as `Option.none` results.
* C `float` values that are only stored, compared and copied (durations,
  positions) are modelled as `ℚ`; no floating-point rounding is involved
  in any modelled computation.
* C `int` counters are modelled as `Nat`/`Int`; the 32-bit bound is never
  approached by the modelled quantities.
-/

abbrev Str := List Char

/-- Model of `strstr`/`strchr` (lib/airplay_video.c passim): index of the
first occurrence of `pat` in the scanned string, `none` when absent. -/
def firstOcc (pat : Str) : Str → Option Nat
  | [] => if pat.isPrefixOf ([] : Str) then some 0 else none
  | c :: rest =>
      if pat.isPrefixOf (c :: rest) then some 0
      else (firstOcc pat rest).map (· + 1)

/-- Model of `strstr` starting from offset `i` of `s` (a C pointer into the
middle of a buffer); result is an absolute index into `s`. -/
def findFrom (pat s : Str) (i : Nat) : Option Nat :=
  (firstOcc pat (s.drop i)).map (· + i)

/-- `memcpy(new, s + i, n)` source bytes: the `n`-byte segment of `s` at
offset `i`. -/
def seg (s : Str) (i n : Nat) : Str := (s.drop i).take n

/-- The occurrence-counting loop of `adjust_master_playlist`
(lib/airplay_video.c:749-755) and of the `#EXTINF` counter of
`adjust_yt_condensed_playlist` (lib/airplay_video.c:881-886): after each hit
the scan pointer advances by one byte only, so every occurrence position is
counted, including overlapping ones. -/
def countOcc (pat : Str) : Str → Nat
  | [] => 0
  | c :: rest => (if pat.isPrefixOf (c :: rest) then 1 else 0) + countOcc pat rest

/-! ## `adjust_master_playlist` (lib/airplay_video.c:745-792)

The replacement loop (lines 770-789) rewrites greedy, non-overlapping,
left-to-right occurrences of the client uri prefix into the local uri
prefix, incrementing a byte counter for every byte written.  The tail of
the input after the final occurrence is copied inside the loop, in the
branch where the next `strstr` returns NULL; when the first `strstr`
already returns NULL the loop body never runs and nothing is copied.
The worker below returns (bytes written, byte_count, replacement counter);
`fuel` makes the recursion structural, and the callers always pass more
fuel than the loop can consume. -/

def amp_loop (pat loc : Str) : Nat → Str → Str × Nat × Nat
  | 0, s => (s, s.length, 0)
  | fuel + 1, s =>
      match firstOcc pat s with
      | none => (s, s.length, 0)
      | some i =>
          let r := amp_loop pat loc fuel (s.drop (i + pat.length))
          (s.take i ++ loc ++ r.1, i + loc.length + r.2.1, r.2.2 + 1)

/-- The number of replacements performed by the greedy rewriting loop. -/
def greedyOccCount (pat : Str) : Nat → Str → Nat
  | 0, _ => 0
  | fuel + 1, s =>
      match firstOcc pat s with
      | none => 0
      | some i => greedyOccCount pat fuel (s.drop (i + pat.length)) + 1

/-- Model of `adjust_master_playlist` (lib/airplay_video.c:745-792).
`new_len` is the predicted output size computed from the overlapping
occurrence count (lines 749-759); the final `assert(byte_count == new_len)`
(line 790) is modelled by returning `none` when the written byte count
disagrees with the prediction (in C this aborts, and the returned buffer
would contain uninitialized bytes). -/
def adjust_master_playlist (data pat loc : Str) : Option Str :=
  let counter := countOcc pat data
  let new_len : Int := ((loc.length : Int) - (pat.length : Int)) * counter + data.length
  let r :=
    match firstOcc pat data with
    | none => (([] : Str), 0, 0)
    | some _ => amp_loop pat loc (data.length + 1) data
  if (r.2.1 : Int) = new_len then some r.1 else none


/-! ## Media data store (lib/airplay_video.c:29-45, 575-647)

`media_item_t` mirrors `struct media_item_s`; `num_uri` is the length of
the item list.  `duration` (a C `float` that is only stored and compared)
is modelled as `ℚ`. -/

inductive playlist_type_t
  | NONE
  | VOD
  | EVENT
deriving DecidableEq, Repr

structure media_item_t where
  uri : Str
  playlist : Option Str
  num : Nat
  count : Nat
  duration : ℚ
  endlist : Bool
  playlist_type : playlist_type_t
  hls_version : Int
  media_sequence : Int
deriving DecidableEq, Repr

/-- Return value of `store_media_playlist` (0, 1, -1, -2). -/
inductive store_result_t
  | stored
  | duplicate
  | out_of_range
  | already_stored
deriving DecidableEq, Repr

/-- Digits-accumulating core of `strtol(ptr, &endptr, 10)`. -/
def parseDigits : Str → Nat → Nat
  | [], acc => acc
  | c :: rest, acc =>
      if c.isDigit then parseDigits rest (acc * 10 + (c.toNat - 48)) else acc

/-- Model of `strtol(ptr, &endptr, 10)` as used on playlist header fields. -/
def strtol10 (s : Str) : Int :=
  let t := s.dropWhile (fun c => c == ' ' || c == '\t' || c == '\n')
  match t with
  | '-' :: rest => -(parseDigits rest 0 : Int)
  | '+' :: rest => (parseDigits rest 0 : Int)
  | _ => (parseDigits t 0 : Int)

structure MpFields where
  playlist_type : playlist_type_t
  hls_version : Int
  media_sequence : Int
deriving DecidableEq, Repr

/-- The scanning loop of `parse_media_playlist`
(lib/airplay_video.c:588-620): walk `#EXT` tags before the first
`#EXTINF:`, and update the playlist-type / version / media-sequence fields
from `strstr` hits (each `strstr` searches the whole remaining string).
The scan position advances by `strlen("#EXT-X-") = 7` per iteration, so
`s.length + 1` fuel always suffices. -/
def pmp_loop (s : Str) : Nat → Nat → MpFields → MpFields
  | 0, _, f => f
  | fuel + 1, pos, f =>
      match findFrom "#EXT".toList s pos with
      | none => f
      | some p =>
          if "#EXTINF:".toList.isPrefixOf (s.drop p) then f
          else
            match findFrom "#EXT-X-".toList s p with
            | none => f
            | some px =>
                let f1 :=
                  match findFrom "PLAYLIST-TYPE:".toList s px with
                  | none => f
                  | some q =>
                      let after := s.drop (q + 14)
                      if "VOD".toList.isPrefixOf after then
                        { f with playlist_type := .VOD }
                      else if "EVENT".toList.isPrefixOf after then
                        { f with playlist_type := .EVENT }
                      else f
                let f2 :=
                  match findFrom "VERSION:".toList s px with
                  | none => f1
                  | some q => { f1 with hls_version := strtol10 (s.drop (q + 8)) }
                let f3 :=
                  match findFrom "MEDIA-SEQUENCE:".toList s px with
                  | none => f2
                  | some q => { f2 with media_sequence := strtol10 (s.drop (q + 15)) }
                pmp_loop s fuel (px + 7) f3

/-- Model of `parse_media_playlist` (lib/airplay_video.c:575-622); a `-1`
return (no `#EXTM3U`) leaves the item unchanged, like the C caller which
ignores the return value. -/
def parse_media_playlist (item : media_item_t) : media_item_t :=
  match item.playlist with
  | none => item
  | some s =>
      match firstOcc "#EXTM3U".toList s with
      | none => item
      | some p =>
          let f := pmp_loop s (s.length + 1) (p + 1)
            ⟨item.playlist_type, item.hls_version, item.media_sequence⟩
          { item with
              playlist_type := f.playlist_type
              hls_version := f.hls_version
              media_sequence := f.media_sequence }

/-- Model of `store_media_playlist` (lib/airplay_video.c:624-647).
The item list is `media_data_store`, `num_uri = store.length`.  `none`
models the `assert(strcmp(...) == 0)` failure at line 634 when a prior
item with an equal uri holds a different playlist text, and the undefined
`strcmp(NULL, ..)` when that prior item has no stored playlist. -/
def store_media_playlist (store : List media_item_t) (media_playlist : Str)
    (count : Nat) (duration : ℚ) (endlist : Bool) (num : Int) :
    Option (List media_item_t × store_result_t) :=
  if num < 0 ∨ (store.length : Int) ≤ num then some (store, .out_of_range)
  else
    let n := num.toNat
    match store[n]? with
    | none => none
    | some item =>
        if item.playlist.isSome then some (store, .already_stored)
        else
          match (store.take n).findIdx? (fun it => it.uri = item.uri) with
          | some j =>
              match store[j]? with
              | none => none
              | some itj =>
                  match itj.playlist with
                  | none => none
                  | some pj =>
                      if pj = media_playlist then
                        some (store.set n { item with num := j }, .duplicate)
                      else none
          | none =>
              let item1 := { item with
                playlist := some media_playlist
                count := count
                duration := duration
                endlist := endlist }
              some (store.set n (parse_media_playlist item1), .stored)



/-! ## Session state (struct airplay_video_s, lib/airplay_video.c:47-301)

Fields `uri_prefix` / `local_uri_prefix` are rendered `uriPrefix` /
`localUriPrefix`.  `lang` is the borrowed operator preference list (a
possibly NULL `const char *`).  Positions are C floats that are only
stored, compared and copied, modelled as `ℚ`. -/

structure airplay_video_t where
  apple_session_id : Option Str
  playback_uuid : Option Str
  uriPrefix : Option Str
  localUriPrefix : Str
  playback_location : Option Str
  language_name : Option Str
  language_code : Option Str
  lang : Option Str
  next_uri : Nat
  FCUP_RequestID : Nat
  start_position_seconds : ℚ
  resume_position_seconds : ℚ
  master_playlist : Option Str
  media_data_store : Option (List media_item_t)
deriving DecidableEq

/-- `airplay_video_init` (lib/airplay_video.c:68-103): zero-initialized
session with `local_uri_prefix = "http://localhost:" ++ <printed port>`. -/
def airplay_video_init (portStr : Str) (lang : Option Str) : airplay_video_t :=
  { apple_session_id := none
    playback_uuid := none
    uriPrefix := none
    localUriPrefix := "http://localhost:".toList ++ portStr
    playback_location := none
    language_name := none
    language_code := none
    lang := lang
    next_uri := 0
    FCUP_RequestID := 0
    start_position_seconds := 0
    resume_position_seconds := 0
    master_playlist := none
    media_data_store := none }

/-- `set_apple_session_id` (lib/airplay_video.c:139-152):
`assert(apple_session_id && len == 36)`. -/
def set_apple_session_id (s : airplay_video_t) (v : Str) : Option airplay_video_t :=
  if v.length = 36 then some { s with apple_session_id := some v } else none

/-- `set_playback_uuid` (lib/airplay_video.c:154-167):
`assert(playback_uuid && len == 36)`. -/
def set_playback_uuid (s : airplay_video_t) (v : Str) : Option airplay_video_t :=
  if v.length = 36 then some { s with playback_uuid := some v } else none

/-- `set_uri_prefix` (lib/airplay_video.c:169-182): `assert(uri_prefix && len)`. -/
def set_uriPrefix (s : airplay_video_t) (v : Str) : Option airplay_video_t :=
  if v ≠ [] then some { s with uriPrefix := some v } else none

/-- `set_playback_location` (lib/airplay_video.c:184-197): `assert(location && len)`. -/
def set_playback_location (s : airplay_video_t) (v : Str) : Option airplay_video_t :=
  if v ≠ [] then some { s with playback_location := some v } else none

/-- `set_language_name` (lib/airplay_video.c:199-212): `assert(language_name && len)`. -/
def set_language_name (s : airplay_video_t) (v : Str) : Option airplay_video_t :=
  if v ≠ [] then some { s with language_name := some v } else none

/-- `set_language_code` (lib/airplay_video.c:214-227): `assert(language_code && len)`. -/
def set_language_code (s : airplay_video_t) (v : Str) : Option airplay_video_t :=
  if v ≠ [] then some { s with language_code := some v } else none

/-- `get_duration` (lib/airplay_video.c:237-242): 0.0 when the session
pointer is NULL, when it has no media store, or when item 0's duration is
0.0; otherwise item 0's duration (never a sum over the store).  An empty
store (possible only after a failed uri-table extraction) reads item 0 out
of bounds in C; the model returns 0. -/
def get_duration (s : Option airplay_video_t) : ℚ :=
  match s with
  | none => 0
  | some av =>
      match av.media_data_store with
      | none => 0
      | some [] => 0
      | some (item0 :: _) => item0.duration

def get_start_position_seconds (s : airplay_video_t) : ℚ :=
  s.start_position_seconds

def get_resume_position_seconds (s : airplay_video_t) : ℚ :=
  s.resume_position_seconds

def get_playback_location (s : airplay_video_t) : Option Str :=
  s.playback_location

/-- `get_next_FCUP_RequestID` (lib/airplay_video.c:284-286): pre-increment,
returning the incremented counter. -/
def get_next_FCUP_RequestID (s : airplay_video_t) : Nat × airplay_video_t :=
  (s.FCUP_RequestID + 1, { s with FCUP_RequestID := s.FCUP_RequestID + 1 })

/-- The request-id sequence produced by consecutive
`get_next_FCUP_RequestID` calls on a session. -/
def fcup_id_stream (s : airplay_video_t) : Nat → Nat
  | 0 => (get_next_FCUP_RequestID s).1
  | k + 1 => fcup_id_stream (get_next_FCUP_RequestID s).2 k

/-! ## Session registry and POST /play
(lib/http_handlers.h:22-40, 728-936; build/include/raop.h:27-28) -/

def MAX_AIRPLAY_VIDEO : Nat := 10

def MIN_STORED_AIRPLAY_VIDEO_DURATION_SECONDS : ℚ := 90

/-- The slot table `raop->airplay_video[MAX_AIRPLAY_VIDEO]` and
`raop->current_video` (`-1` rendered `none`). -/
structure raop_t where
  airplay_video : List (Option airplay_video_t)
  current_video : Option Nat
  port : Str
  lang : Option Str
deriving DecidableEq

/-- `get_playlist_by_uuid` (lib/http_handlers.h:32-40): first slot holding a
session whose playback uuid equals the argument (`-1` rendered `none`).
A stored session always has its uuid set (it is set right after creation),
so the NULL comparison case does not arise. -/
def get_playlist_by_uuid (slots : List (Option airplay_video_t)) (uuid : Str) :
    Option Nat :=
  slots.findIdx? (fun slot =>
    match slot with
    | some av => av.playback_uuid = some uuid
    | none => false)

/-- Observable effects of `http_handler_play`: FCUP requests written on the
reverse channel, player callbacks, and the error response triple. -/
inductive play_event
  | fcup_request (url : Str) (session_id : Str) (request_id : Nat)
  | on_video_play (location : Option Str) (start_position : ℚ)
  | bad_request_400
  | set_disconnect
  | conn_reset (cause : Nat)
deriving DecidableEq

/-- The observable part of a POST /play request: the `X-Apple-Session-ID`
header, whether the body is a binary plist, and the plist fields `uuid`,
`Content-Location`, `clientProcName`, `Start-Position-Seconds`. -/
structure play_request_t where
  apple_session_id : Option Str
  is_binary_plist : Bool
  uuid : Option Str
  content_location : Option Str
  client_proc_name : Option Str
  start_position_seconds : Option ℚ
deriving DecidableEq

/-- The advertisement-pruning pass of `http_handler_play`
(lib/http_handlers.h:806-819): destroy every stored session whose
`get_duration` is below `MIN_STORED_AIRPLAY_VIDEO_DURATION_SECONDS`. -/
def prune_short_playlists (slots : List (Option airplay_video_t)) :
    List (Option airplay_video_t) :=
  slots.map (fun slot =>
    match slot with
    | some av =>
        if get_duration (some av) < MIN_STORED_AIRPLAY_VIDEO_DURATION_SECONDS
        then none else some av
    | none => none)

/-- The `play_error` exit of `http_handler_play`
(lib/http_handlers.h:927-935): `400 Bad Request`, disconnect, `conn_reset`
with cause 2. -/
def play_error_events : List play_event :=
  [.bad_request_400, .set_disconnect, .conn_reset 2]

/-- Model of `http_handler_play` (lib/http_handlers.h:728-936), returning
the new registry state and the emitted events; `none` models an assertion
failure (a 36-byte id assertion, `assert(count < MAX_AIRPLAY_VIDEO)`,
`assert(id >= 0)`, or `assert(uri_prefix && len)` when `Content-Location`
starts with `/master.m3u8`). -/
def http_handler_play (raop : raop_t) (req : play_request_t) :
    Option (raop_t × List play_event) :=
  match req.apple_session_id with
  | none => some (raop, play_error_events)
  | some asid =>
  if ¬ req.is_binary_plist then some (raop, play_error_events)
  else
    match req.uuid with
    | none => some (raop, play_error_events)
    | some uuid =>
    match get_playlist_by_uuid raop.airplay_video uuid with
    | some id =>
        match raop.airplay_video[id]? with
        | some (some av) =>
            match set_apple_session_id av asid with
            | none => none
            | some av1 =>
                let resume_pos := get_resume_position_seconds av1
                let start_pos := get_start_position_seconds av1
                some ({ raop with
                          airplay_video := raop.airplay_video.set id (some av1)
                          current_video := some id },
                      [.on_video_play (get_playback_location av1)
                          (if resume_pos > start_pos then resume_pos else start_pos)])
        | _ => none
    | none =>
        let pruned := prune_short_playlists raop.airplay_video
        let count := pruned.countP (·.isSome)
        if MAX_AIRPLAY_VIDEO ≤ count then none
        else
          match pruned.findIdx? (·.isNone) with
          | none => none
          | some id =>
          match set_apple_session_id (airplay_video_init raop.port raop.lang) asid with
          | none => none
          | some av1 =>
          match set_playback_uuid av1 uuid with
          | none => none
          | some av2 =>
          let slots1 := pruned.set id (some av2)
          let slots2 :=
            if count + 1 = MAX_AIRPLAY_VIDEO
            then slots1.set ((id + 1) % MAX_AIRPLAY_VIDEO) none
            else slots1
          match req.content_location with
          | none =>
              some ({ raop with airplay_video := slots2, current_video := some id },
                    play_error_events)
          | some content_location =>
          match req.client_proc_name with
          | none =>
              some ({ raop with airplay_video := slots2, current_video := some id },
                    play_error_events)
          | some _ =>
          let start_pos := (req.start_position_seconds).getD 0
          let av3 := { av2 with start_position_seconds := start_pos }
          match firstOcc "/master.m3u8".toList content_location with
          | none =>
              some ({ raop with
                        airplay_video := slots2.set id (some av3)
                        current_video := some id },
                    play_error_events)
          | some idx =>
          let location := av3.localUriPrefix ++ content_location.drop idx
          match set_playback_location av3 location with
          | none => none
          | some av4 =>
          match set_uriPrefix av4 (content_location.take idx) with
          | none => none
          | some av5 =>
          let r := get_next_FCUP_RequestID { av5 with next_uri := 0 }
          some ({ raop with
                    airplay_video := slots2.set id (some r.2)
                    current_video := some id },
                [.fcup_request content_location asid r.1])

/-! ## POST /reverse (lib/http_handlers.h:429-458)

`httpd_set_connection_type` and `httpd_count_connection_type` belong to
the external HTTP server, which is not part of this repository's sources;
their models below follow the spec's description of the collaborator
("per-connection socket handle, connection type tagging"). -/

inductive connection_type_t
  | CONNECTION_TYPE_UNKNOWN
  | CONNECTION_TYPE_PTTH
deriving DecidableEq

/-- Modelled from the spec: `httpd_set_connection_type` (declared by the
external HTTP server) tags the given connection with the given type. -/
def httpd_set_connection_type (conns : List (Nat × connection_type_t))
    (connId : Nat) (t : connection_type_t) : List (Nat × connection_type_t) :=
  conns.map (fun p => if p.1 = connId then (p.1, t) else p)

/-- Modelled from the spec: `httpd_count_connection_type` (declared by the
external HTTP server) counts the connections currently tagged with the
given type. -/
def httpd_count_connection_type (conns : List (Nat × connection_type_t))
    (t : connection_type_t) : Nat :=
  (conns.filter (fun p => p.2 = t)).length

/-- The response as far as `http_handler_reverse` shapes it: `none` status
means the handler left the response object untouched (its default is built
by the external server). -/
structure reverse_response_t where
  status : Option (Nat × String)
  headers : List (String × String)
deriving DecidableEq

/-- Model of `http_handler_reverse` (lib/http_handlers.h:429-458): tag the
connection PTTH, then upgrade (101 + headers) exactly when the PTTH
connection count is 1; otherwise only log, leaving the response untouched
(but the tag remains). -/
def http_handler_reverse (conns : List (Nat × connection_type_t)) (connId : Nat) :
    List (Nat × connection_type_t) × reverse_response_t :=
  let conns1 := httpd_set_connection_type conns connId .CONNECTION_TYPE_PTTH
  if httpd_count_connection_type conns1 .CONNECTION_TYPE_PTTH = 1 then
    (conns1, { status := some (101, "Switching Protocols"),
               headers := [("Connection", "Upgrade"), ("Upgrade", "PTTH/1.0")] })
  else
    (conns1, { status := none, headers := [] })

/-- Concrete media item used by the C4 example store. -/
def c4item (u : String) (pl : Option String) (k : Nat) : media_item_t :=
  { uri := u.toList, playlist := pl.map String.toList, num := k, count := 0,
    duration := 0, endlist := false, playlist_type := .NONE,
    hls_version := 0, media_sequence := 0 }

/-- A two-item media store whose items share one uri; item 0 already holds
playlist text `"A"`, item 1 is not yet stored. -/
def c4store : List media_item_t := [c4item "u" (some "A") 0, c4item "u" none 1]



/-! ## Master-playlist language selection (lib/airplay_video.c:303-524)

`master_playlist_process_language` (lines 311-413) parses the master text
into a prelude slice (before the first `#EXT-X-MEDIA` line), `count`
language slices (each with a DEFAULT flag, a NAME, and the 2-character
LANGUAGE code) and a tail slice; prelude and tail carry an empty code.
The selection and emission logic of `select_master_playlist_language`
(lines 415-524) is modelled below over that parsed `language_t` array
(the scanning layer is abstracted to its output, the array contents). -/

structure language_t where
  text : Str
  is_default : Bool
  code : Str
  name : Str
deriving DecidableEq, Repr

/-- `strncmp(a, b, n) == 0` on NUL-terminated strings. -/
def strncmpEq : Nat → Str → Str → Bool
  | 0, _, _ => true
  | _ + 1, [], [] => true
  | _ + 1, [], _ :: _ => false
  | _ + 1, _ :: _, [] => false
  | n + 1, a :: as, b :: bs => a = b && strncmpEq n as bs

/-- The `copies` count (lib/airplay_video.c:395-400): among the slices
`languages[1..count-1]` (all but the last, 1-indexed), how many share the
first slice's code.  A single slice gives `copies = 0`, and the following
`count / copies` divides by zero. -/
def language_copies (langs : List language_t) : Nat :=
  match langs with
  | [] => 0
  | l1 :: _ => (langs.dropLast).countP (fun g => g.code = l1.code)

/-- The `i_default` loop (lib/airplay_video.c:433-445): scan the first
`language_count` slices; when a language name is stored, remember the LAST
slice whose NAME equals it (DEFAULT flags are then ignored); otherwise
remember the last slice flagged DEFAULT.  `none` means `i_default` stays
`-1` and `assert(i_default >= 0)` fires. -/
def pick_i_default (language_name : Option Str) (groups : List language_t) :
    Option language_t :=
  (groups.filter (fun g =>
    match language_name with
    | some nm => g.name = nm
    | none => g.is_default)).getLast?

/-- The preferred-language scan (lib/airplay_video.c:447-470): the scanned
tokens are the whole operator list and, after each `:`, the remainder when
it is at least 2 characters long; for each token in turn, the first group
whose code matches it under `strncmp(code, ptrc, 2)` is chosen.  The token
position strictly advances, so `ptrc.length + 1` fuel always suffices. -/
def pref_scan (groups : List language_t) : Nat → Str → Option language_t
  | 0, _ => none
  | fuel + 1, ptrc =>
      match groups.find? (fun g => strncmpEq 2 g.code ptrc) with
      | some g => some g
      | none =>
          match firstOcc [':'] ptrc with
          | none => none
          | some j =>
              let rest := ptrc.drop (j + 1)
              if rest.length < 2 then none
              else pref_scan groups fuel rest

/-- The preference scan as `select_master_playlist_language` starts it:
not at all when `lang` is NULL. -/
def pref_choice (lang : Option Str) (groups : List language_t) : Option language_t :=
  match lang with
  | none => none
  | some l => pref_scan groups (l.length + 1) l

/-- Model of `select_master_playlist_language`
(lib/airplay_video.c:415-524) on the parsed slices: `pre` is the prelude
slice, `langs` the language slices in order, `tl` the tail slice.  `none`
models the division by zero at line 402 (`copies = 0`), the structure
assertions at lines 403-411, `assert(i_default >= 0)` at line 445, and the
`assert(len)` of the language setters (empty chosen name or code).  The
update of the stored language (lines 486-499) is unconditional: the C
guard `name != language_name` compares pointers from distinct
allocations. -/
def select_master_playlist_language (s : airplay_video_t)
    (pre : Str) (langs : List language_t) (tl : Str) :
    Option (Str × airplay_video_t) :=
  if langs = [] then some (pre ++ tl, s)
  else
    let count := langs.length
    let copies := language_copies langs
    if copies = 0 then none
    else
      let language_count := count / copies
      if ¬ (count = language_count * copies) then none
      else if ¬ ((List.range count).all (fun i =>
          i < language_count ∨
          (langs[i]?.map language_t.code) =
            (langs[i - language_count]?.map language_t.code))) then none
      else
        let groups := langs.take language_count
        match pick_i_default s.language_name groups with
        | none => none
        | some dflt =>
            let chosen := (pref_choice s.lang groups).getD dflt
            match set_language_name s chosen.name with
            | none => none
            | some s1 =>
                match set_language_code s1 chosen.code with
                | none => none
                | some s2 =>
                    some (pre ++
                      ((langs.filter (fun g =>
                        g.code = [] ∨ g.code = chosen.code)).map language_t.text).flatten ++
                      tl, s2)

/-- The selection priority as the spec words it (spec §4.A step 4):
(a) a stored `language_name` equal to some slice's NAME wins; (b) else the
first group whose code prefix-matches a colon-separated token of the
operator preference list; (c) else the DEFAULT slice. -/
def spec_language_choice (language_name lang : Option Str)
    (groups : List language_t) : Option language_t :=
  let nameMatch :=
    match language_name with
    | some nm => groups.find? (fun g => g.name = nm)
    | none => none
  match nameMatch with
  | some g => some g
  | none =>
      match pref_choice lang groups with
      | some g => some g
      | none => groups.find? (fun g => g.is_default)

/-! ## Concrete example data used by the witnesses -/

/-- 36-byte example playback uuid. -/
def exUuid : Str := List.replicate 36 'A'

/-- 36-byte example Apple session id. -/
def exAsid : Str := List.replicate 36 'S'

def exPort : Str := "7100".toList

/-- A media item of duration 120 s. -/
def exItem120 : media_item_t :=
  { uri := "u".toList, playlist := none, num := 0, count := 0, duration := 120,
    endlist := false, playlist_type := .NONE, hls_version := 0, media_sequence := 0 }

/-- A stored long-form session for `exUuid` with resume position 99 s and
start position 5 s. -/
def exSession : airplay_video_t :=
  { airplay_video_init exPort none with
      playback_uuid := some exUuid
      playback_location := some "http://localhost:7100/master.m3u8".toList
      resume_position_seconds := 99
      start_position_seconds := 5
      media_data_store := some [exItem120] }

/-- Registry with `exSession` stored in slot 3. -/
def exRaop : raop_t :=
  { airplay_video :=
      (List.replicate 10 (none : Option airplay_video_t)).set 3 (some exSession)
    current_video := none
    port := exPort
    lang := none }

/-- An empty registry. -/
def emptyRaop : raop_t :=
  { airplay_video := List.replicate 10 none
    current_video := none
    port := exPort
    lang := none }

/-- A fresh, fully formed /play request. -/
def exPlayReq : play_request_t :=
  { apple_session_id := some exAsid
    is_binary_plist := true
    uuid := some exUuid
    content_location := some "http://client:7000/x/master.m3u8".toList
    client_proc_name := some "YouTube".toList
    start_position_seconds := some (25 / 2) }

/-- A resume request for `exUuid` (fields beyond the uuid are not read on
the resume path). -/
def exResumeReq : play_request_t :=
  { exPlayReq with content_location := none, client_proc_name := none }

/-- A stored long-form session whose uuid is 36 copies of `c`. -/
def exLongSession (c : Char) : airplay_video_t :=
  { airplay_video_init exPort none with
      playback_uuid := some (List.replicate 36 c)
      media_data_store := some [exItem120] }

/-- A registry with nine stored long-form sessions and slot 4 free. -/
def exNineRaop : raop_t :=
  { airplay_video :=
      [some (exLongSession 'B'), some (exLongSession 'C'), some (exLongSession 'D'),
       some (exLongSession 'E'), none, some (exLongSession 'F'), some (exLongSession 'G'),
       some (exLongSession 'H'), some (exLongSession 'I'), some (exLongSession 'J')]
    current_video := none
    port := exPort
    lang := none }

/-- A session that has not yet stored any media playlist. -/
def exStaleSession : airplay_video_t :=
  { airplay_video_init exPort none with playback_uuid := some (List.replicate 36 'Z') }

/-- Registry holding only `exStaleSession`, in slot 5. -/
def exStaleRaop : raop_t :=
  { airplay_video :=
      (List.replicate 10 (none : Option airplay_video_t)).set 5 (some exStaleSession)
    current_video := none
    port := exPort
    lang := none }

/-- French language slice of the C1 example. -/
def c1fr : language_t :=
  { text := "F\n".toList, is_default := false, code := "fr".toList,
    name := "Francais".toList }

/-- English (DEFAULT) language slice of the C1 example. -/
def c1en : language_t :=
  { text := "E\n".toList, is_default := true, code := "en".toList,
    name := "English".toList }

def c1groups : List language_t := [c1fr, c1en]

/-- Session whose stored language name is "English" while the operator
preference list is "fr". -/
def c1session : airplay_video_t :=
  { airplay_video_init exPort (some "fr".toList) with
      language_name := some "English".toList
      language_code := some "en".toList }

/-! ## `adjust_yt_condensed_playlist` (lib/airplay_video.c:794-981)

The condensed-URI expander.  All `strstr`/`strchr` scans are `findFrom`
calls; a scan that returns NULL leads in C to pointer arithmetic on NULL
and a crashing `memcpy`/`strchr`, modelled as `none`.  `paramPass` is the
inner `for (i) < nparams` loop (lines 930-958): per parameter it writes
`'/' ++ token ++ '/'`, then copies the input up to the next `'/'`
(`strchr`, non-last) or up to the next `"#EXT"` (`strstr`, last parameter,
which also copies the newline).  `chunkLoop` is the outer `while (ptr)`
loop (lines 909-959): per chunk it copies the `#EXTINF:` line (bytes
counted from `ptr`, copied from `old_pos`), substitutes BASE-URI for the
prefix, pre-computes the next chunk pointer, then runs `paramPass`.  The
loop is fueled; exhausted fuel (`none`) corresponds to the C loop not
returning (the zero-progress `PREFIX=""` spin).  The final
`assert(byte_count == new_len)` (line 968) is the last `if`; the written
byte count always equals the output length because every write increments
`byte_count` by exactly the bytes written. -/
def paramPass (mp : Str) : List Str → Nat → Str → Option (Str × Nat)
  | [], oldPos, out => some (out, oldPos)
  | [tok], oldPos, out =>
      match findFrom "#EXT".toList mp oldPos with
      | none => none
      | some e => some (out ++ ['/'] ++ tok ++ ['/'] ++ seg mp oldPos (e - oldPos), e)
  | tok :: tok2 :: toks, oldPos, out =>
      match findFrom ['/'] mp oldPos with
      | none => none
      | some e =>
          paramPass mp (tok2 :: toks) (e + 1)
            (out ++ ['/'] ++ tok ++ ['/'] ++ seg mp oldPos (e - oldPos))

def chunkLoop (mp base pfx : Str) (toks : List Str) :
    Nat → Option Nat → Nat → Str → Option (Str × Nat)
  | _, none, oldPos, out => some (out, oldPos)
  | 0, some _, _, _ => none
  | fuel + 1, some p, oldPos, out =>
      match findFrom pfx mp p with
      | none => none
      | some start =>
          match paramPass mp toks (oldPos + (start - p) + pfx.length)
              (out ++ seg mp oldPos (start - p) ++ base) with
          | none => none
          | some (out2, old2) =>
              chunkLoop mp base pfx toks fuel
                (findFrom "#EXTINF:".toList mp (oldPos + (start - p) + pfx.length))
                old2 out2

def adjust_yt_condensed_playlist (mp : Str) : Option Str :=
  match firstOcc "#EXTM3U\n".toList mp with
  | none => none
  | some m =>
    if ¬ ("#YT-EXT-CONDENSED-URL".toList.isPrefixOf (mp.drop (m + 8))) then
      some mp
    else
      match findFrom "BASE-URI=".toList mp (m + 8) with
      | none => none
      | some b1 =>
        match findFrom ['"'] mp b1 with
        | none => none
        | some q1 =>
          match findFrom ['"'] mp (q1 + 1) with
          | none => none
          | some q2 =>
            let base_uri := seg mp (q1 + 1) (q2 - (q1 + 1))
            match findFrom "PARAMS=".toList mp q2 with
            | none => none
            | some b2 =>
              match findFrom ['"'] mp b2 with
              | none => none
              | some q3 =>
                match findFrom ['"'] mp (q3 + 1) with
                | none => none
                | some q4 =>
                  let params := seg mp (q3 + 1) (q4 - (q3 + 1))
                  match findFrom "PREFIX=".toList mp q4 with
                  | none => none
                  | some b3 =>
                    match findFrom ['"'] mp b3 with
                    | none => none
                    | some q5 =>
                      match findFrom ['"'] mp (q5 + 1) with
                      | none => none
                      | some q6 =>
                        let pfx := seg mp (q5 + 1) (q6 - (q5 + 1))
                        let toks := if params = [] then [] else params.splitOn ','
                        let count := countOcc "#EXTINF".toList mp
                        let new_len := mp.length + count * (base_uri.length + params.length)
                        match firstOcc "#EXTINF:".toList mp with
                        | none => none
                        | some h0 =>
                          match chunkLoop mp base_uri pfx toks (mp.length + 1)
                              (some h0) h0 (seg mp 0 h0) with
                          | none => none
                          | some (out, oldEnd) =>
                            if mp.length < oldEnd then none
                            else
                              let outF := out ++ mp.drop oldEnd
                              if outF.length = new_len then some outF else none

/-- Concrete input family for the C3 theorem: one condensed chunk,
`#EXTINF:<ext>\n<prefix><comp_1>/<comp_2>/...<comp_n>\n`. -/
def condensedChunk (pfx ext : Str) (comps : List Str) : Str :=
  "#EXTINF:".toList ++ (ext ++ ('\n' ::
    (pfx ++ (List.intercalate ['/'] comps ++ ['\n']))))

/-- The expansion the C code writes for one condensed chunk:
`#EXTINF:<ext>\n<BASE-URI>/<tok_1>/<comp_1>/<tok_2>/<comp_2>...\n`. -/
def expandedChunk (base : Str) (toks : List Str) (ext : Str) (comps : List Str) : Str :=
  "#EXTINF:".toList ++ (ext ++ ('\n' :: (base ++
    ((List.zipWith (fun t d => '/' :: (t ++ '/' :: d)) toks comps).flatten ++ ['\n']))))

/-- Concrete input family for the C3 theorem: a full condensed media
playlist with the `#YT-EXT-CONDENSED-URL` header and `cs` chunks. -/
def condensedInput (base : Str) (toks : List Str) (pfx : Str)
    (cs : List (Str × List Str)) : Str :=
  "#EXTM3U\n#YT-EXT-CONDENSED-URL:BASE-URI=\"".toList ++ (base ++
    ("\",PARAMS=\"".toList ++ (List.intercalate [','] toks ++
      ("\",PREFIX=\"".toList ++ (pfx ++ ("\"\n".toList ++
        ((cs.map (fun c => condensedChunk pfx c.1 c.2)).flatten ++
          "#EXT-X-ENDLIST\n".toList)))))))

/-- The expected expansion of `condensedInput`: same header, each chunk
expanded, the `#EXT-X-ENDLIST` terminator kept. -/
def condensedOutput (base : Str) (toks : List Str) (pfx : Str)
    (cs : List (Str × List Str)) : Str :=
  "#EXTM3U\n#YT-EXT-CONDENSED-URL:BASE-URI=\"".toList ++ (base ++
    ("\",PARAMS=\"".toList ++ (List.intercalate [','] toks ++
      ("\",PREFIX=\"".toList ++ (pfx ++ ("\"\n".toList ++
        ((cs.map (fun c => expandedChunk base toks c.1 c.2)).flatten ++
          "#EXT-X-ENDLIST\n".toList)))))))

/-! ## Properties -/

theorem firstOcc_le {pat s : Str} {i : Nat} (h : firstOcc pat s = some i) :
    i + pat.length ≤ s.length := by
  induction s generalizing i with
  | nil =>
    unfold firstOcc at h
    split at h
    · next hp =>
      cases h
      have := List.isPrefixOf_iff_prefix.mp hp
      simp [List.prefix_nil] at this
      simp [this]
    · exact absurd h (by simp)
  | cons c rest ih =>
    unfold firstOcc at h
    split at h
    · next hp =>
      cases h
      have := (List.isPrefixOf_iff_prefix.mp hp).length_le
      simpa using this
    · next hp =>
      rcases Option.map_eq_some'.mp h with ⟨j, hj, rfl⟩
      have := ih hj
      simp only [List.length_cons]
      omega

theorem firstOcc_sound {pat s : Str} {i : Nat} (h : firstOcc pat s = some i) :
    pat.isPrefixOf (s.drop i) := by
  induction s generalizing i with
  | nil =>
    unfold firstOcc at h
    split at h
    · next hp => cases h; simpa using hp
    · exact absurd h (by simp)
  | cons c rest ih =>
    unfold firstOcc at h
    split at h
    · next hp => cases h; simpa using hp
    · next hp =>
      rcases Option.map_eq_some'.mp h with ⟨j, hj, rfl⟩
      simpa using ih hj

theorem firstOcc_min {pat s : Str} {i : Nat} (h : firstOcc pat s = some i) :
    ∀ j < i, ¬ pat.isPrefixOf (s.drop j) := by
  induction s generalizing i with
  | nil =>
    unfold firstOcc at h
    split at h
    · cases h; omega
    · exact absurd h (by simp)
  | cons c rest ih =>
    unfold firstOcc at h
    split at h
    · cases h; omega
    · next hp =>
      rcases Option.map_eq_some'.mp h with ⟨k, hk, rfl⟩
      intro j hj
      cases j with
      | zero => simpa using hp
      | succ j' =>
        have := ih hk j' (by omega)
        simpa using this

theorem firstOcc_complete {pat s : Str} {i : Nat}
    (hpre : pat.isPrefixOf (s.drop i))
    (hmin : ∀ j < i, ¬ pat.isPrefixOf (s.drop j)) :
    firstOcc pat s = some i := by
  induction s generalizing i with
  | nil =>
    cases i with
    | zero => simp_all [firstOcc]
    | succ i' => exact absurd (by simpa using hpre) (by simpa using hmin 0 (by omega))
  | cons c rest ih =>
    cases i with
    | zero => simp_all [firstOcc]
    | succ i' =>
      have h0 : ¬ pat.isPrefixOf (c :: rest) := by simpa using hmin 0 (by omega)
      have hrec : firstOcc pat rest = some i' := by
        apply ih
        · simpa using hpre
        · intro j hj
          have := hmin (j + 1) (by omega)
          simpa using this
      simp [firstOcc, h0, hrec]

theorem firstOcc_none_iff {pat s : Str} :
    firstOcc pat s = none ↔ ∀ j, ¬ pat.isPrefixOf (s.drop j) := by
  constructor
  · intro h j
    intro hp
    induction s generalizing j with
    | nil =>
      unfold firstOcc at h
      split at h
      · simp at h
      · next hq =>
        cases j <;> simp_all
    | cons c rest ih =>
      unfold firstOcc at h
      split at h
      · simp at h
      · next hq =>
        have hr : firstOcc pat rest = none := by
          cases hfo : firstOcc pat rest <;> simp [hfo] at h ⊢
        cases j with
        | zero => exact hq (by simpa using hp)
        | succ j' => exact ih hr j' (by simpa using hp)
  · intro h
    cases hfo : firstOcc pat s with
    | none => rfl
    | some i => exact absurd (firstOcc_sound hfo) (h i)

theorem isPrefixOf_append_of_le {pat a b : Str} (h : pat.length ≤ a.length) :
    pat.isPrefixOf (a ++ b) ↔ pat.isPrefixOf a := by
  simp only [List.isPrefixOf_iff_prefix]
  constructor
  · intro hp
    exact List.prefix_of_prefix_length_le hp (List.prefix_append a b) h
  · intro hp
    exact hp.trans (List.prefix_append a b)

theorem firstOcc_append_left {pat a : Str} {k : Nat}
    (h : firstOcc pat a = some k) (hk : k + pat.length ≤ a.length) (b : Str) :
    firstOcc pat (a ++ b) = some k := by
  apply firstOcc_complete
  · have := firstOcc_sound h
    have hdrop : (a ++ b).drop k = a.drop k ++ b := by
      rw [List.drop_append_of_le_length (by omega)]
    rw [hdrop]
    rw [isPrefixOf_append_of_le (by simp [List.length_drop]; omega)]
    exact this
  · intro j hj
    have hmin := firstOcc_min h j hj
    have hdrop : (a ++ b).drop j = a.drop j ++ b := by
      rw [List.drop_append_of_le_length (by omega)]
    rw [hdrop, isPrefixOf_append_of_le (by simp [List.length_drop]; omega)]
    exact hmin

theorem drop_append_ge {a b : Str} {j : Nat} (h : a.length ≤ j) :
    (a ++ b).drop j = b.drop (j - a.length) := by
  rw [List.drop_append_eq_append_drop]
  simp [List.drop_eq_nil_of_le h]

/-- A pattern starting with `p` has no occurrence beginning inside a block
that does not contain the character `p`. -/
theorem firstOcc_append_split {p : Char} {pt a b : Str}
    (h1 : ∀ j < a.length, ¬ (p :: pt).isPrefixOf ((a ++ b).drop j)) :
    firstOcc (p :: pt) (a ++ b) = (firstOcc (p :: pt) b).map (a.length + ·) := by
  cases hfo : firstOcc (p :: pt) b with
  | none =>
    simp only [Option.map_none']
    rw [firstOcc_none_iff]
    intro j hp
    by_cases hj : j < a.length
    · exact h1 j hj hp
    · rw [drop_append_ge (by omega)] at hp
      exact (firstOcc_none_iff.mp hfo) _ hp
  | some k =>
    simp only [Option.map_some']
    apply firstOcc_complete
    · have := firstOcc_sound hfo
      rw [drop_append_ge (by omega)]
      simpa using this
    · intro j hj hp
      by_cases hja : j < a.length
      · exact h1 j hja hp
      · rw [drop_append_ge (by omega)] at hp
        exact firstOcc_min hfo _ (by omega) hp

theorem headfree_no_occ {p : Char} {pt a b : Str}
    (hfree : ∀ c ∈ a, c ≠ p) :
    ∀ j < a.length, ¬ (p :: pt).isPrefixOf ((a ++ b).drop j) := by
  intro j hj hp
  rcases List.isPrefixOf_iff_prefix.mp hp with ⟨t, ht⟩
  have hget : (a ++ b).get? j = some p := by
    have : ((a ++ b).drop j).get? 0 = some p := by rw [← ht]; rfl
    rwa [List.get?_drop, Nat.add_zero] at this
  have hga : a.get? j = some p := by
    rwa [List.get?_append hj] at hget
  exact hfree p (List.get?_mem hga) rfl

theorem firstOcc_append_headfree {p : Char} {pt a b : Str}
    (hfree : ∀ c ∈ a, c ≠ p) :
    firstOcc (p :: pt) (a ++ b) = (firstOcc (p :: pt) b).map (a.length + ·) := by
  apply firstOcc_append_split
  exact headfree_no_occ hfree

theorem amp_loop_counter (pat loc : Str) :
    ∀ fuel s, (amp_loop pat loc fuel s).2.2 = greedyOccCount pat fuel s := by
  intro fuel
  induction fuel with
  | zero => intro s; rfl
  | succ n ih =>
    intro s
    cases hfo : firstOcc pat s with
    | none => simp [amp_loop, greedyOccCount, hfo]
    | some i => simp [amp_loop, greedyOccCount, hfo, ih]

theorem amp_loop_spec (pat loc : Str) (hp : pat ≠ []) :
    ∀ fuel s, s.length < fuel →
      (amp_loop pat loc fuel s).2.1 = (amp_loop pat loc fuel s).1.length ∧
      ((amp_loop pat loc fuel s).1.length : Int) =
        s.length +
          ((amp_loop pat loc fuel s).2.2 : Int) *
            ((loc.length : Int) - (pat.length : Int)) := by
  intro fuel
  induction fuel with
  | zero => intro s hs; omega
  | succ n ih =>
    intro s hs
    have hplen : 1 ≤ pat.length := by
      cases pat with
      | nil => simp at hp
      | cons c cs => simp
    cases hfo : firstOcc pat s with
    | none => simp [amp_loop, hfo]
    | some i =>
      have hle := firstOcc_le hfo
      have hrec := ih (s.drop (i + pat.length)) (by simp [List.length_drop]; omega)
      simp only [amp_loop, hfo]
      have htake : (s.take i).length = i := by
        simp [List.length_take]; omega
      have hdroplen : ((s.drop (i + pat.length)).length : Int) =
          (s.length : Int) - (i : Int) - (pat.length : Int) := by
        simp [List.length_drop]; omega
      refine ⟨?_, ?_⟩
      · simp only [List.length_append, htake, hrec.1]
      · simp only [List.length_append, htake]
        have h2 := hrec.2
        rw [hdroplen] at h2
        push_cast
        nlinarith [h2]

/-- C2, claim as stated, refuted: the master playlist `"aaa"` contains two
(overlapping) occurrences of the client uri prefix `"aa"`; the claim
predicts an output of length `3 + 2 * (1 - 2) = 1` with the byte-count
assertion passing, but the replacement loop only rewrites one greedy
occurrence and the `assert(byte_count == new_len)` at
lib/airplay_video.c:790 fails (modelled by `none`). -/
theorem C2_counterexample :
    adjust_master_playlist "aaa".toList "aa".toList "b".toList = none := by
  decide

/-- C2 (amended): for a non-empty client uri prefix that occurs at least
once in the master playlist, and whose overlapping occurrence count agrees
with the greedy (non-overlapping) replacement count, the rewritten output
exists (the byte-count assertion at lib/airplay_video.c:790 holds) and has
length exactly `input_len + count * (local_prefix_len - client_prefix_len)`. -/
theorem C2_master_rewrite_length (data pat loc : Str) (hp : pat ≠ [])
    (h1 : firstOcc pat data ≠ none)
    (hg : countOcc pat data = greedyOccCount pat (data.length + 1) data) :
    ∃ out, adjust_master_playlist data pat loc = some out ∧
      (out.length : Int) =
        (data.length : Int) +
          (countOcc pat data : Int) *
            ((loc.length : Int) - (pat.length : Int)) := by
  cases hfo : firstOcc pat data with
  | none => exact absurd hfo h1
  | some i =>
    have hspec := amp_loop_spec pat loc hp (data.length + 1) data (by omega)
    have hcnt := amp_loop_counter pat loc (data.length + 1) data
    have hbytes : (((amp_loop pat loc (data.length + 1) data).2.1 : Nat) : Int) =
        ((loc.length : Int) - (pat.length : Int)) * (countOcc pat data : Int) +
          (data.length : Int) := by
      rw [hspec.1, hspec.2, hcnt, ← hg]
      ring
    refine ⟨(amp_loop pat loc (data.length + 1) data).1, ?_, ?_⟩
    · simp only [adjust_master_playlist, hfo]
      rw [if_pos hbytes]
    · rw [hspec.2, hcnt, ← hg]

/-- Witness for C2 (amended) at a concrete input: prefix `"p"` occurs once
in `"pX"`; the rewrite with local prefix `"qq"` yields `"qqX"` of length
`2 + 1 * (2 - 1) = 3`. -/
theorem C2_witness :
    "p".toList ≠ [] ∧
    firstOcc "p".toList "pX".toList ≠ none ∧
    countOcc "p".toList "pX".toList =
      greedyOccCount "p".toList ("pX".toList.length + 1) "pX".toList ∧
    ∃ out, adjust_master_playlist "pX".toList "p".toList "qq".toList = some out ∧
      (out.length : Int) =
        ("pX".toList.length : Int) +
          (countOcc "p".toList "pX".toList : Int) *
            (("qq".toList.length : Int) - ("p".toList.length : Int)) :=
  ⟨by decide, by decide, by decide,
    C2_master_rewrite_length "pX".toList "p".toList "qq".toList
      (by decide) (by decide) (by decide)⟩

theorem map_set_eq {α β : Type} (f : α → β) (l : List α) (n : Nat) (a b : α)
    (hl : l[n]? = some a) (hfb : f b = f a) : (l.set n b).map f = l.map f := by
  induction l generalizing n with
  | nil => simp at hl
  | cons x xs ih =>
    cases n with
    | zero =>
      simp only [List.getElem?_cons_zero, Option.some.injEq] at hl
      subst hl
      simp [List.set, hfb]
    | succ m =>
      simp only [List.getElem?_cons_succ] at hl
      simp [List.set, ih m hl]

/-- C4, claim as stated, refuted: storing playlist text `"B"` at index 1 of
a store whose item 0 has the same uri but holds text `"A"` is none of the
four advertised outcomes: the `assert(strcmp(media_data_store[i].playlist,
media_playlist) == 0)` at lib/airplay_video.c:634 fails (modelled `none`),
so the call aborts instead of classifying. -/
theorem C4_counterexample :
    store_media_playlist c4store "B".toList 0 0 false 1 = none := by
  decide

/-- C4 (amended): `store_media_playlist` classifies every call as
out_of_range (index outside `[0, num_uri)`), already_stored (slot playlist
non-null), duplicate (the first prior item `j < index` with an equal uri
holds a byte-equal playlist text: the item's `num` is set to `j`, the new
playlist is discarded and every stored playlist is unchanged), or stored —
provided that, when a prior item with an equal uri exists, its stored text
is byte-equal to the new playlist; otherwise the internal byte-equality
assertion fails (an abort, modelled `none`). -/
theorem C4_store_classification (store : List media_item_t) (pl : Str)
    (cnt : Nat) (dur : ℚ) (el : Bool) (num : Int) :
    ((num < 0 ∨ (store.length : Int) ≤ num) →
      store_media_playlist store pl cnt dur el num = some (store, .out_of_range)) ∧
    (∀ (n : Nat) (item : media_item_t), (n : Int) = num → store[n]? = some item →
      (item.playlist.isSome →
        store_media_playlist store pl cnt dur el num = some (store, .already_stored)) ∧
      (item.playlist = none →
        ((store.take n).findIdx? (fun it => it.uri = item.uri) = none →
          store_media_playlist store pl cnt dur el num =
            some (store.set n
              (parse_media_playlist
                { item with
                    playlist := some pl
                    count := cnt
                    duration := dur
                    endlist := el }), .stored)) ∧
        (∀ j itj, (store.take n).findIdx? (fun it => it.uri = item.uri) = some j →
          store[j]? = some itj →
          (itj.playlist = some pl →
            store_media_playlist store pl cnt dur el num =
              some (store.set n { item with num := j }, .duplicate) ∧
            (store.set n { item with num := j }).map media_item_t.playlist =
              store.map media_item_t.playlist) ∧
          (∀ pj, itj.playlist = some pj → pj ≠ pl →
            store_media_playlist store pl cnt dur el num = none) ∧
          (itj.playlist = none →
            store_media_playlist store pl cnt dur el num = none)))) := by
  constructor
  · intro h
    unfold store_media_playlist
    rw [if_pos h]
  · intro n item hn hitem
    have hnlt : n < store.length := by
      rcases List.getElem?_eq_some.mp hitem with ⟨h, _⟩
      exact h
    have hrange : ¬ (num < 0 ∨ (store.length : Int) ≤ num) := by omega
    have htoNat : num.toNat = n := by omega
    have hred : store_media_playlist store pl cnt dur el num =
        (if item.playlist.isSome then some (store, .already_stored)
         else
          match (store.take n).findIdx? (fun it => it.uri = item.uri) with
          | some j =>
              match store[j]? with
              | none => none
              | some itj =>
                  match itj.playlist with
                  | none => none
                  | some pj =>
                      if pj = pl then
                        some (store.set n { item with num := j }, .duplicate)
                      else none
          | none =>
              some (store.set n
                (parse_media_playlist
                  { item with
                      playlist := some pl
                      count := cnt
                      duration := dur
                      endlist := el }), .stored)) := by
      unfold store_media_playlist
      rw [if_neg hrange]
      simp only [htoNat, hitem]
    refine ⟨?_, ?_⟩
    · intro hsome
      rw [hred, if_pos hsome]
    · intro hnone
      have hnotsome : ¬ item.playlist.isSome = true := by simp [hnone]
      refine ⟨?_, ?_⟩
      · intro hfind
        rw [hred, if_neg hnotsome]
        simp only [hfind]
      · intro j itj hfind hitj
        refine ⟨?_, ?_, ?_⟩
        · intro hpj
          constructor
          · rw [hred, if_neg hnotsome]
            simp [hfind, hitj, hpj]
          · exact map_set_eq media_item_t.playlist store n item _ hitem rfl
        · intro pj hpj hne
          rw [hred, if_neg hnotsome]
          simp only [hfind, hitj, hpj]
          rw [if_neg hne]
        · intro hpj
          rw [hred, if_neg hnotsome]
          simp only [hfind, hitj, hpj]

/-- Witness for C4 (amended) at a concrete store: storing text `"A"` at
index 1 whose uri equals item 0's (which already holds `"A"`) returns
duplicate, redirects item 1's `num` to 0 and leaves every stored playlist
unchanged. -/
theorem C4_witness :
    store_media_playlist c4store "A".toList 0 0 false 1 =
      some (c4store.set 1 { c4item "u" none 1 with num := 0 }, .duplicate) ∧
    (c4store.set 1 { c4item "u" none 1 with num := 0 }).map media_item_t.playlist =
      c4store.map media_item_t.playlist := by
  have h := C4_store_classification c4store "A".toList 0 0 false 1
  exact ((((h.2 1 (c4item "u" none 1) (by decide) (by decide)).2
    (by decide)).2) 0 (c4item "u" (some "A") 0) (by decide) (by decide)).1 (by decide)

theorem findIdx?_some_facts {α : Type} {p : α → Bool} {l : List α} {i : Nat}
    (h : l.findIdx? p = some i) :
    i < l.length ∧ ∃ a, l[i]? = some a ∧ p a := by
  induction l generalizing i with
  | nil => simp [List.findIdx?] at h
  | cons x xs ih =>
    rw [List.findIdx?_cons] at h
    by_cases hp : p x
    · simp only [hp, if_pos] at h
      cases h
      simp [hp]
    · simp only [hp, Bool.false_eq_true, if_false] at h
      rw [List.findIdx?_succ] at h
      rcases Option.map_eq_some'.mp h with ⟨j, hj, rfl⟩
      rcases ih hj with ⟨h1, a, h2, h3⟩
      exact ⟨by simpa using Nat.succ_lt_succ h1, a, by simpa using h2, h3⟩

theorem C6_resume_play (raop : raop_t) (req : play_request_t) (asid uuid : Str)
    (id : Nat) (av : airplay_video_t)
    (hasid : req.apple_session_id = some asid)
    (hbin : req.is_binary_plist = true)
    (huuid : req.uuid = some uuid)
    (hfound : get_playlist_by_uuid raop.airplay_video uuid = some id)
    (hslot : raop.airplay_video[id]? = some (some av))
    (h36 : asid.length = 36) :
    http_handler_play raop req =
      some ({ raop with
                airplay_video :=
                  raop.airplay_video.set id (some { av with apple_session_id := some asid })
                current_video := some id },
            [.on_video_play av.playback_location
                (max av.resume_position_seconds av.start_position_seconds)]) := by
  unfold http_handler_play
  rw [hasid]
  simp only [hbin, not_true, if_neg, huuid, hfound, hslot]
  simp only [set_apple_session_id, h36, if_pos]
  simp only [get_resume_position_seconds, get_start_position_seconds, get_playback_location]
  have hmax : (if av.resume_position_seconds > av.start_position_seconds
      then av.resume_position_seconds else av.start_position_seconds) =
      max av.resume_position_seconds av.start_position_seconds := by
    rw [max_comm, max_def]
    split <;> split <;> first | rfl | omega | linarith
  simp [hmax]

theorem set_evict_set {α : Type} (l : List α) (id e : Nat) (hne : e ≠ id)
    (a b n : α) : ((l.set id a).set e n).set id b = (l.set id b).set e n := by
  rw [List.set_comm _ _ _ (fun h => hne h.symm), List.set_set, List.set_comm _ _ _ hne.symm]

/-- Canonical form of the state produced by the new-session branch of
`http_handler_play`: whatever point the handler returns from (error exits
included), the registry is the pruned table with the new session written
at the first free slot `id`, followed by the wrap-around eviction of slot
`(id+1) % 10` exactly when the table became full. -/
theorem play_new_canonical (raop : raop_t) (req : play_request_t) (asid uuid : Str)
    (id : Nat)
    (hasid : req.apple_session_id = some asid) (h36 : asid.length = 36)
    (hbin : req.is_binary_plist = true)
    (huuid : req.uuid = some uuid) (hu36 : uuid.length = 36)
    (hnf : get_playlist_by_uuid raop.airplay_video uuid = none)
    (hcap : (prune_short_playlists raop.airplay_video).countP (·.isSome) < MAX_AIRPLAY_VIDEO)
    (hid : (prune_short_playlists raop.airplay_video).findIdx? (·.isNone) = some id) :
    ∀ st ev, http_handler_play raop req = some (st, ev) →
      ∃ av', av'.playback_uuid = some uuid ∧
        st.current_video = some id ∧ st.port = raop.port ∧ st.lang = raop.lang ∧
        st.airplay_video =
          (if (prune_short_playlists raop.airplay_video).countP (·.isSome) + 1 =
              MAX_AIRPLAY_VIDEO
           then ((prune_short_playlists raop.airplay_video).set id (some av')).set
                  ((id + 1) % MAX_AIRPLAY_VIDEO) none
           else (prune_short_playlists raop.airplay_video).set id (some av')) := by
  intro st ev h
  have hevict : (id + 1) % MAX_AIRPLAY_VIDEO ≠ id := by
    simp only [MAX_AIRPLAY_VIDEO]
    omega
  unfold http_handler_play at h
  rw [hasid] at h
  simp only [hbin, not_true, ite_false, huuid, hnf] at h
  rw [if_neg (show ¬ (MAX_AIRPLAY_VIDEO ≤
    (prune_short_playlists raop.airplay_video).countP (·.isSome)) by omega)] at h
  simp only [hid] at h
  simp only [set_apple_session_id, set_playback_uuid, h36, hu36, if_pos] at h
  cases hcl : req.content_location with
  | none =>
    simp only [hcl] at h
    cases h
    exact ⟨{ airplay_video_init raop.port raop.lang with
               apple_session_id := some asid
               playback_uuid := some uuid }, rfl, rfl, rfl, rfl, rfl⟩
  | some cl =>
    simp only [hcl] at h
    cases hpn : req.client_proc_name with
    | none =>
      simp only [hpn] at h
      cases h
      exact ⟨{ airplay_video_init raop.port raop.lang with
                 apple_session_id := some asid
                 playback_uuid := some uuid }, rfl, rfl, rfl, rfl, rfl⟩
    | some pn =>
      simp only [hpn] at h
      cases hfo : firstOcc "/master.m3u8".toList cl with
      | none =>
        simp only [hfo] at h
        cases h
        refine ⟨{ airplay_video_init raop.port raop.lang with
                    apple_session_id := some asid
                    playback_uuid := some uuid
                    start_position_seconds := req.start_position_seconds.getD 0 },
          rfl, rfl, rfl, rfl, ?_⟩
        by_cases hc : (prune_short_playlists raop.airplay_video).countP (·.isSome) + 1 =
            MAX_AIRPLAY_VIDEO
        · simp only [hc, if_pos]
          rw [set_evict_set _ _ _ hevict]
        · simp only [hc, if_neg, ite_false]
          rw [List.set_set]
      | some idx =>
        simp only [hfo] at h
        simp only [set_playback_location, set_uriPrefix] at h
        rw [if_pos (show ((airplay_video_init raop.port raop.lang).localUriPrefix ++
          cl.drop idx ≠ []) by simp [airplay_video_init])] at h
        simp only [] at h
        by_cases hidx : cl.take idx = []
        · rw [if_neg (show ¬ (cl.take idx ≠ []) by simp [hidx])] at h
          cases h
        · rw [if_pos hidx] at h
          cases h
          refine ⟨{ airplay_video_init raop.port raop.lang with
                      apple_session_id := some asid
                      playback_uuid := some uuid
                      start_position_seconds := req.start_position_seconds.getD 0
                      playback_location :=
                        some ((airplay_video_init raop.port raop.lang).localUriPrefix ++
                          cl.drop idx)
                      uriPrefix := some (cl.take idx)
                      next_uri := 0
                      FCUP_RequestID :=
                        (airplay_video_init raop.port raop.lang).FCUP_RequestID + 1 },
            rfl, rfl, rfl, rfl, ?_⟩
          by_cases hc : (prune_short_playlists raop.airplay_video).countP (·.isSome) + 1 =
              MAX_AIRPLAY_VIDEO
          · simp only [hc, if_pos]
            rw [set_evict_set _ _ _ hevict]
            rfl
          · simp only [hc, if_neg, ite_false]
            rw [List.set_set]
            rfl

theorem prune_length (l : List (Option airplay_video_t)) :
    (prune_short_playlists l).length = l.length := by
  simp [prune_short_playlists]

theorem getElem?_set_self_of_lt {α : Type} (l : List α) (i : Nat) (a : α)
    (h : i < l.length) : (l.set i a)[i]? = some a := by
  rw [List.getElem?_set_self']
  simp [List.getElem?_eq_getElem h]

theorem prune_ad {l : List (Option airplay_video_t)} {i : Nat} {av : airplay_video_t}
    (h : l[i]? = some (some av))
    (hd : get_duration (some av) < MIN_STORED_AIRPLAY_VIDEO_DURATION_SECONDS) :
    (prune_short_playlists l)[i]? = some none := by
  unfold prune_short_playlists
  rw [List.getElem?_map, h]
  simp [hd]

/-- Pruned or written slots in the result of the new-session branch:
every slot other than the inserted one that held an advertisement
(duration below 90 s) is empty afterwards. -/
theorem play_new_prunes (raop : raop_t) (req : play_request_t) (asid uuid : Str)
    (id : Nat)
    (hlen : raop.airplay_video.length = MAX_AIRPLAY_VIDEO)
    (hasid : req.apple_session_id = some asid) (h36 : asid.length = 36)
    (hbin : req.is_binary_plist = true)
    (huuid : req.uuid = some uuid) (hu36 : uuid.length = 36)
    (hnf : get_playlist_by_uuid raop.airplay_video uuid = none)
    (hcap : (prune_short_playlists raop.airplay_video).countP (·.isSome) < MAX_AIRPLAY_VIDEO)
    (hid : (prune_short_playlists raop.airplay_video).findIdx? (·.isNone) = some id) :
    ∀ i av0, raop.airplay_video[i]? = some (some av0) →
      get_duration (some av0) < MIN_STORED_AIRPLAY_VIDEO_DURATION_SECONDS →
      i ≠ id →
      ∀ st ev, http_handler_play raop req = some (st, ev) →
        st.airplay_video[i]? = some none := by
  intro i av0 hslot hdur hne st ev h
  obtain ⟨av', hpb, hcur, hport, hlang, hslots⟩ :=
    play_new_canonical raop req asid uuid id hasid h36 hbin huuid hu36 hnf hcap hid st ev h
  have hi : i < raop.airplay_video.length := by
    rcases List.getElem?_eq_some.mp hslot with ⟨hlt, _⟩
    exact hlt
  have hpruned : (prune_short_playlists raop.airplay_video)[i]? = some none :=
    prune_ad hslot hdur
  rw [hslots]
  split
  · by_cases hie : i = (id + 1) % MAX_AIRPLAY_VIDEO
    · subst hie
      exact getElem?_set_self_of_lt _ _ _
        (by simp [List.length_set, prune_length]; omega)
    · rw [List.getElem?_set_ne (fun hh => hie hh.symm), List.getElem?_set_ne hne.symm]
      exact hpruned
  · rw [List.getElem?_set_ne hne.symm]
    exact hpruned

/-- C5: the session registry cannot exceed its fixed 10-slot capacity; a
successful insertion of a new session never evicts that session (the
evicted slot `(id + 1) % 10` differs from the inserted slot `id`); when
the table is full right after insertion, the slot `(id + 1) % 10` is
emptied; and advertisement slots (duration below 90 s) are pruned before
the new slot `id` (the first free slot of the pruned table) is chosen. -/
theorem C5_registry_capacity (raop : raop_t) (req : play_request_t) (asid uuid : Str)
    (id : Nat)
    (hlen : raop.airplay_video.length = MAX_AIRPLAY_VIDEO)
    (hasid : req.apple_session_id = some asid) (h36 : asid.length = 36)
    (hbin : req.is_binary_plist = true)
    (huuid : req.uuid = some uuid) (hu36 : uuid.length = 36)
    (hnf : get_playlist_by_uuid raop.airplay_video uuid = none)
    (hcap : (prune_short_playlists raop.airplay_video).countP (·.isSome) < MAX_AIRPLAY_VIDEO)
    (hid : (prune_short_playlists raop.airplay_video).findIdx? (·.isNone) = some id) :
    ∀ st ev, http_handler_play raop req = some (st, ev) →
      st.airplay_video.length = MAX_AIRPLAY_VIDEO ∧
      st.airplay_video.countP (·.isSome) ≤ MAX_AIRPLAY_VIDEO ∧
      (id + 1) % MAX_AIRPLAY_VIDEO ≠ id ∧
      (∃ av', st.airplay_video[id]? = some (some av') ∧ av'.playback_uuid = some uuid) ∧
      ((prune_short_playlists raop.airplay_video).countP (·.isSome) + 1 =
          MAX_AIRPLAY_VIDEO →
        st.airplay_video[(id + 1) % MAX_AIRPLAY_VIDEO]? = some none) ∧
      (∀ i av0, raop.airplay_video[i]? = some (some av0) →
        get_duration (some av0) < MIN_STORED_AIRPLAY_VIDEO_DURATION_SECONDS →
        i ≠ id → st.airplay_video[i]? = some none) := by
  intro st ev h
  obtain ⟨av', hpb, hcur, hport, hlang, hslots⟩ :=
    play_new_canonical raop req asid uuid id hasid h36 hbin huuid hu36 hnf hcap hid st ev h
  have hevict : (id + 1) % MAX_AIRPLAY_VIDEO ≠ id := by
    simp only [MAX_AIRPLAY_VIDEO]
    omega
  have hidlt : id < (prune_short_playlists raop.airplay_video).length :=
    (findIdx?_some_facts hid).1
  have hstlen : st.airplay_video.length = MAX_AIRPLAY_VIDEO := by
    rw [hslots]
    split <;> simp [List.length_set, prune_length, hlen]
  refine ⟨hstlen, ?_, hevict, ?_, ?_, ?_⟩
  · rw [← hstlen]
    exact List.countP_le_length _
  · refine ⟨av', ?_, hpb⟩
    rw [hslots]
    split
    · rw [List.getElem?_set_ne hevict]
      exact getElem?_set_self_of_lt _ _ _ hidlt
    · exact getElem?_set_self_of_lt _ _ _ hidlt
  · intro hfull
    rw [hslots, if_pos hfull]
    exact getElem?_set_self_of_lt _ _ _
      (by simp [List.length_set, prune_length, hlen]; simp [MAX_AIRPLAY_VIDEO]; omega)
  · exact fun i av0 h1 h2 h3 =>
      play_new_prunes raop req asid uuid id hlen hasid h36 hbin huuid hu36 hnf hcap hid
        i av0 h1 h2 h3 st ev h

/-- Witness for C5 at a concrete registry: nine stored long-form sessions
plus a fresh /play; the new session lands in slot 4, survives, and the
wrap-around slot 5 is evicted. -/
theorem C5_witness :
    ∃ st ev, http_handler_play exNineRaop exPlayReq = some (st, ev) ∧
      st.airplay_video.length = MAX_AIRPLAY_VIDEO ∧
      (5 : Nat) ≠ 4 ∧
      (∃ av', st.airplay_video[4]? = some (some av') ∧ av'.playback_uuid = some exUuid) ∧
      st.airplay_video[5]? = some none := by
  obtain ⟨h1, h2, h3, h4, h5, h6⟩ :=
    C5_registry_capacity exNineRaop exPlayReq exAsid exUuid 4
      (by decide) rfl (by decide) rfl rfl (by decide) (by decide) (by decide) (by decide)
      _ _ rfl
  exact ⟨_, _, rfl, h1, by decide, h4, h5 (by decide)⟩

/-- Accept path of the new-session branch: when `Content-Location` holds
`/master.m3u8` at a positive offset, the handler stores the session (uri
prefix = the text before the first occurrence, playback location = local
prefix ++ suffix from the occurrence) and writes one FCUP request for the
full `Content-Location` with request id 1; no error response is emitted. -/
theorem play_new_accepts (raop : raop_t) (req : play_request_t) (asid uuid cl pn : Str)
    (id idx : Nat)
    (hasid : req.apple_session_id = some asid) (h36 : asid.length = 36)
    (hbin : req.is_binary_plist = true)
    (huuid : req.uuid = some uuid) (hu36 : uuid.length = 36)
    (hnf : get_playlist_by_uuid raop.airplay_video uuid = none)
    (hcap : (prune_short_playlists raop.airplay_video).countP (·.isSome) < MAX_AIRPLAY_VIDEO)
    (hid : (prune_short_playlists raop.airplay_video).findIdx? (·.isNone) = some id)
    (hcl : req.content_location = some cl)
    (hpn : req.client_proc_name = some pn)
    (hfo : firstOcc "/master.m3u8".toList cl = some idx)
    (hidx : cl.take idx ≠ []) :
    ∃ st av', http_handler_play raop req = some (st, [.fcup_request cl asid 1]) ∧
      st.current_video = some id ∧
      st.airplay_video[id]? = some (some av') ∧
      av'.uriPrefix = some (cl.take idx) ∧
      av'.playback_location =
        some ((airplay_video_init raop.port raop.lang).localUriPrefix ++ cl.drop idx) ∧
      av'.FCUP_RequestID = 1 ∧
      av'.playback_uuid = some uuid := by
  have hidlt : id < (prune_short_playlists raop.airplay_video).length :=
    (findIdx?_some_facts hid).1
  unfold http_handler_play
  rw [hasid]
  simp only [hbin, not_true, ite_false, huuid, hnf]
  rw [if_neg (show ¬ (MAX_AIRPLAY_VIDEO ≤
    (prune_short_playlists raop.airplay_video).countP (·.isSome)) by omega)]
  simp only [hid]
  simp only [set_apple_session_id, set_playback_uuid, h36, hu36, if_pos]
  simp only [hcl, hpn, hfo]
  simp only [set_playback_location, set_uriPrefix]
  rw [if_pos (show ((airplay_video_init raop.port raop.lang).localUriPrefix ++
    cl.drop idx ≠ []) by simp [airplay_video_init])]
  simp only []
  rw [if_pos hidx]
  simp only []
  refine ⟨_, { airplay_video_init raop.port raop.lang with
                 apple_session_id := some asid
                 playback_uuid := some uuid
                 start_position_seconds := req.start_position_seconds.getD 0
                 playback_location :=
                   some ((airplay_video_init raop.port raop.lang).localUriPrefix ++
                     cl.drop idx)
                 uriPrefix := some (cl.take idx)
                 next_uri := 0
                 FCUP_RequestID :=
                   (airplay_video_init raop.port raop.lang).FCUP_RequestID + 1 },
    rfl, rfl, ?_, rfl, rfl, rfl, rfl⟩
  by_cases hc : (prune_short_playlists raop.airplay_video).countP (·.isSome) + 1 =
      MAX_AIRPLAY_VIDEO
  · simp only [hc, if_pos]
    rw [set_evict_set _ _ _ (show (id + 1) % MAX_AIRPLAY_VIDEO ≠ id by
      simp only [MAX_AIRPLAY_VIDEO]; omega)]
    rw [List.getElem?_set_ne (show (id + 1) % MAX_AIRPLAY_VIDEO ≠ id by
      simp only [MAX_AIRPLAY_VIDEO]; omega)]
    exact getElem?_set_self_of_lt _ _ _ hidlt
  · simp only [hc, if_neg, ite_false]
    rw [List.set_set]
    exact getElem?_set_self_of_lt _ _ _ hidlt

/-- Reject path: when `Content-Location` does not contain `/master.m3u8`
at all, the handler answers 400 Bad Request, marks the connection for
disconnect and calls `conn_reset` with cause 2. -/
theorem play_new_rejects (raop : raop_t) (req : play_request_t) (asid uuid cl pn : Str)
    (id : Nat)
    (hasid : req.apple_session_id = some asid) (h36 : asid.length = 36)
    (hbin : req.is_binary_plist = true)
    (huuid : req.uuid = some uuid) (hu36 : uuid.length = 36)
    (hnf : get_playlist_by_uuid raop.airplay_video uuid = none)
    (hcap : (prune_short_playlists raop.airplay_video).countP (·.isSome) < MAX_AIRPLAY_VIDEO)
    (hid : (prune_short_playlists raop.airplay_video).findIdx? (·.isNone) = some id)
    (hcl : req.content_location = some cl)
    (hpn : req.client_proc_name = some pn)
    (hfo : firstOcc "/master.m3u8".toList cl = none) :
    ∃ st, http_handler_play raop req = some (st, play_error_events) := by
  unfold http_handler_play
  rw [hasid]
  simp only [hbin, not_true, ite_false, huuid, hnf]
  rw [if_neg (show ¬ (MAX_AIRPLAY_VIDEO ≤
    (prune_short_playlists raop.airplay_video).countP (·.isSome)) by omega)]
  simp only [hid]
  simp only [set_apple_session_id, set_playback_uuid, h36, hu36, if_pos]
  simp only [hcl, hpn, hfo]
  exact ⟨_, rfl⟩

/-- Abort path: `/master.m3u8` right at the start of `Content-Location`
leaves an empty uri prefix, and `set_uri_prefix`'s `assert(len)` fires. -/
theorem play_new_aborts (raop : raop_t) (req : play_request_t) (asid uuid cl pn : Str)
    (id idx : Nat)
    (hasid : req.apple_session_id = some asid) (h36 : asid.length = 36)
    (hbin : req.is_binary_plist = true)
    (huuid : req.uuid = some uuid) (hu36 : uuid.length = 36)
    (hnf : get_playlist_by_uuid raop.airplay_video uuid = none)
    (hcap : (prune_short_playlists raop.airplay_video).countP (·.isSome) < MAX_AIRPLAY_VIDEO)
    (hid : (prune_short_playlists raop.airplay_video).findIdx? (·.isNone) = some id)
    (hcl : req.content_location = some cl)
    (hpn : req.client_proc_name = some pn)
    (hfo : firstOcc "/master.m3u8".toList cl = some idx)
    (hidx : cl.take idx = []) :
    http_handler_play raop req = none := by
  unfold http_handler_play
  rw [hasid]
  simp only [hbin, not_true, ite_false, huuid, hnf]
  rw [if_neg (show ¬ (MAX_AIRPLAY_VIDEO ≤
    (prune_short_playlists raop.airplay_video).countP (·.isSome)) by omega)]
  simp only [hid]
  simp only [set_apple_session_id, set_playback_uuid, h36, hu36, if_pos]
  simp only [hcl, hpn, hfo]
  simp only [set_playback_location, set_uriPrefix]
  rw [if_pos (show ((airplay_video_init raop.port raop.lang).localUriPrefix ++
    cl.drop idx ≠ []) by simp [airplay_video_init])]
  simp only []
  rw [if_neg (show ¬ (cl.take idx ≠ []) by simp [hidx])]

/-- Witness for C6 at a concrete registry: a second /play for the stored
uuid with a fresh Apple session id replaces the session id, issues no FCUP
request and invokes `on_video_play` once with the stored playback location
and `max(resume, start) = max(99, 5)`. -/
theorem C6_witness :
    http_handler_play exRaop exResumeReq =
      some ({ exRaop with
                airplay_video := exRaop.airplay_video.set 3
                  (some { exSession with apple_session_id := some exAsid })
                current_video := some 3 },
            [.on_video_play exSession.playback_location
                (max exSession.resume_position_seconds exSession.start_position_seconds)]) :=
  C6_resume_play exRaop exResumeReq exAsid exUuid 3 exSession rfl rfl rfl (by decide)
    (by decide) (by decide)

theorem fcup_id_stream_eq (k : Nat) : ∀ s : airplay_video_t,
    fcup_id_stream s k = s.FCUP_RequestID + k + 1 := by
  induction k with
  | zero => intro s; rfl
  | succ n ih =>
    intro s
    show fcup_id_stream (get_next_FCUP_RequestID s).2 n = _
    rw [ih]
    simp [get_next_FCUP_RequestID]
    omega

/-- C7: FCUP request ids are strictly increasing within a session; the
counter starts at 0 (`airplay_video_init`), `get_next_FCUP_RequestID`
increments it before use, and the first FCUP request of a fresh /play is
written with request id 1. -/
theorem C7_fcup_ids :
    (∀ portStr lang, (airplay_video_init portStr lang).FCUP_RequestID = 0) ∧
    (∀ s : airplay_video_t,
        (get_next_FCUP_RequestID s).1 = s.FCUP_RequestID + 1 ∧
        (get_next_FCUP_RequestID s).2.FCUP_RequestID = s.FCUP_RequestID + 1) ∧
    (∀ (s : airplay_video_t) (k : Nat), fcup_id_stream s k < fcup_id_stream s (k + 1)) ∧
    (∀ portStr lang k, fcup_id_stream (airplay_video_init portStr lang) k = k + 1) ∧
    (∀ (raop : raop_t) (req : play_request_t) (asid uuid cl pn : Str) (id idx : Nat),
      req.apple_session_id = some asid → asid.length = 36 →
      req.is_binary_plist = true →
      req.uuid = some uuid → uuid.length = 36 →
      get_playlist_by_uuid raop.airplay_video uuid = none →
      (prune_short_playlists raop.airplay_video).countP (·.isSome) < MAX_AIRPLAY_VIDEO →
      (prune_short_playlists raop.airplay_video).findIdx? (·.isNone) = some id →
      req.content_location = some cl →
      req.client_proc_name = some pn →
      firstOcc "/master.m3u8".toList cl = some idx →
      cl.take idx ≠ [] →
      ∀ st ev, http_handler_play raop req = some (st, ev) →
        ev = [.fcup_request cl asid 1]) := by
  refine ⟨fun _ _ => rfl, fun s => ⟨rfl, rfl⟩, ?_, ?_, ?_⟩
  · intro s k
    rw [fcup_id_stream_eq, fcup_id_stream_eq]
    omega
  · intro portStr lang k
    rw [fcup_id_stream_eq]
    simp [airplay_video_init]
  · intro raop req asid uuid cl pn id idx hasid h36 hbin huuid hu36 hnf hcap hid hcl
      hpn hfo hidx st ev h
    obtain ⟨st0, av', heq, _⟩ :=
      play_new_accepts raop req asid uuid cl pn id idx hasid h36 hbin huuid hu36 hnf
        hcap hid hcl hpn hfo hidx
    rw [heq] at h
    cases h
    rfl

/-- Witness for C7: the counter of a fresh session is 0, the id sequence
increases, and a fresh /play on an empty registry writes its FCUP request
with id 1. -/
theorem C7_witness :
    (airplay_video_init exPort none).FCUP_RequestID = 0 ∧
    fcup_id_stream (airplay_video_init exPort none) 0 <
      fcup_id_stream (airplay_video_init exPort none) 1 ∧
    ∃ st ev, http_handler_play emptyRaop exPlayReq = some (st, ev) ∧
      ev = [.fcup_request "http://client:7000/x/master.m3u8".toList exAsid 1] := by
  obtain ⟨h1, h2, h3, h4, h5⟩ := C7_fcup_ids
  refine ⟨h1 exPort none, h3 _ 0, _, _, rfl, ?_⟩
  exact h5 emptyRaop exPlayReq exAsid exUuid
    "http://client:7000/x/master.m3u8".toList "YouTube".toList 0 20
    rfl (by decide) rfl rfl (by decide) (by decide) (by decide) (by decide) rfl rfl
    (by decide) (by decide) _ _ rfl

/-- C8, claim as stated, refuted: `Content-Location =
"http://c/master.m3u8X"` does not end with `/master.m3u8`, yet the handler
accepts it (the check at lib/http_handlers.h:891 is `strstr`, a containment
test): it issues the FCUP request instead of answering 400 Bad Request. -/
theorem C8_counterexample :
    ("/master.m3u8".toList.isSuffixOf "http://c/master.m3u8X".toList = false) ∧
    ∃ st, http_handler_play emptyRaop
        { exPlayReq with content_location := some "http://c/master.m3u8X".toList } =
      some (st, [.fcup_request "http://c/master.m3u8X".toList exAsid 1]) :=
  ⟨by decide, _, rfl⟩

/-- C8 (amended): POST /play accepts a `Content-Location` when it CONTAINS
`/master.m3u8` (at a positive offset); when accepted, `uri_prefix` is the
text before the FIRST occurrence (the suffix from the occurrence onward is
appended to the local prefix).  When `/master.m3u8` does not occur, the
handler responds 400 Bad Request, marks the connection for disconnect and
invokes `conn_reset` with cause 2.  An occurrence at offset 0 leaves an
empty uri prefix and aborts on `assert(uri_prefix && len)`. -/
theorem C8_content_location (raop : raop_t) (req : play_request_t)
    (asid uuid cl pn : Str) (id : Nat)
    (hasid : req.apple_session_id = some asid) (h36 : asid.length = 36)
    (hbin : req.is_binary_plist = true)
    (huuid : req.uuid = some uuid) (hu36 : uuid.length = 36)
    (hnf : get_playlist_by_uuid raop.airplay_video uuid = none)
    (hcap : (prune_short_playlists raop.airplay_video).countP (·.isSome) < MAX_AIRPLAY_VIDEO)
    (hid : (prune_short_playlists raop.airplay_video).findIdx? (·.isNone) = some id)
    (hcl : req.content_location = some cl)
    (hpn : req.client_proc_name = some pn) :
    (firstOcc "/master.m3u8".toList cl = none →
      ∃ st, http_handler_play raop req = some (st, play_error_events)) ∧
    (∀ idx, firstOcc "/master.m3u8".toList cl = some idx → cl.take idx ≠ [] →
      ∃ st av', http_handler_play raop req = some (st, [.fcup_request cl asid 1]) ∧
        st.airplay_video[id]? = some (some av') ∧
        av'.uriPrefix = some (cl.take idx) ∧
        av'.playback_location =
          some ((airplay_video_init raop.port raop.lang).localUriPrefix ++
            cl.drop idx)) ∧
    (∀ idx, firstOcc "/master.m3u8".toList cl = some idx → cl.take idx = [] →
      http_handler_play raop req = none) := by
  refine ⟨?_, ?_, ?_⟩
  · intro hfo
    exact play_new_rejects raop req asid uuid cl pn id hasid h36 hbin huuid hu36 hnf
      hcap hid hcl hpn hfo
  · intro idx hfo hidx
    obtain ⟨st, av', h1, h2, h3, h4, h5, h6, h7⟩ :=
      play_new_accepts raop req asid uuid cl pn id idx hasid h36 hbin huuid hu36 hnf
        hcap hid hcl hpn hfo hidx
    exact ⟨st, av', h1, h3, h4, h5⟩
  · intro idx hfo hidx
    exact play_new_aborts raop req asid uuid cl pn id idx hasid h36 hbin huuid hu36 hnf
      hcap hid hcl hpn hfo hidx

/-- Witness for C8 (amended) at a concrete request: the occurrence of
`/master.m3u8` in `"http://client:7000/x/master.m3u8"` is at offset 20; the
request is accepted with uri prefix `"http://client:7000/x"`. -/
theorem C8_witness :
    ∃ st av', http_handler_play emptyRaop exPlayReq =
        some (st, [.fcup_request "http://client:7000/x/master.m3u8".toList exAsid 1]) ∧
      st.airplay_video[0]? = some (some av') ∧
      av'.uriPrefix = some "http://client:7000/x".toList := by
  obtain ⟨hrej, hacc, habort⟩ :=
    C8_content_location emptyRaop exPlayReq exAsid exUuid
      "http://client:7000/x/master.m3u8".toList "YouTube".toList 0
      rfl (by decide) rfl rfl (by decide) (by decide) (by decide) (by decide) rfl rfl
  obtain ⟨st, av', h1, h2, h3, h4⟩ := hacc 20 (by decide) (by decide)
  exact ⟨st, av', h1, h2, by rw [h3]; rfl⟩

/-- C10: the duration consulted by advertisement pruning is
`media_data_store[0].duration` alone (never a sum over the store);
`get_duration` is 0 for a NULL session, a session without a media store,
or item 0 duration 0; consequently a session that has not yet stored its
first media playlist reads as duration 0 < 90 s and is destroyed by the
pruning pass of the next /play that creates a new session. -/
theorem C10_duration_item0 :
    (get_duration none = 0) ∧
    (∀ av : airplay_video_t, av.media_data_store = none → get_duration (some av) = 0) ∧
    (∀ (av : airplay_video_t) (item0 : media_item_t) (rest : List media_item_t),
        av.media_data_store = some (item0 :: rest) →
        get_duration (some av) = item0.duration) ∧
    (∀ av : airplay_video_t, av.media_data_store = none →
        get_duration (some av) < MIN_STORED_AIRPLAY_VIDEO_DURATION_SECONDS) ∧
    (∀ (raop : raop_t) (req : play_request_t) (asid uuid : Str) (id : Nat),
      raop.airplay_video.length = MAX_AIRPLAY_VIDEO →
      req.apple_session_id = some asid → asid.length = 36 →
      req.is_binary_plist = true →
      req.uuid = some uuid → uuid.length = 36 →
      get_playlist_by_uuid raop.airplay_video uuid = none →
      (prune_short_playlists raop.airplay_video).countP (·.isSome) < MAX_AIRPLAY_VIDEO →
      (prune_short_playlists raop.airplay_video).findIdx? (·.isNone) = some id →
      ∀ i av0, raop.airplay_video[i]? = some (some av0) →
        av0.media_data_store = none → i ≠ id →
        ∀ st ev, http_handler_play raop req = some (st, ev) →
          st.airplay_video[i]? = some none) := by
  refine ⟨rfl, ?_, ?_, ?_, ?_⟩
  · intro av h
    simp [get_duration, h]
  · intro av item0 rest h
    simp [get_duration, h]
  · intro av h
    simp [get_duration, h, MIN_STORED_AIRPLAY_VIDEO_DURATION_SECONDS]
  · intro raop req asid uuid id hlen hasid h36 hbin huuid hu36 hnf hcap hid i av0
      hslot hstore hne st ev h
    exact play_new_prunes raop req asid uuid id hlen hasid h36 hbin huuid hu36 hnf hcap
      hid i av0 hslot (by simp [get_duration, hstore,
        MIN_STORED_AIRPLAY_VIDEO_DURATION_SECONDS]) hne st ev h

/-- Witness for C10: the store-less session in slot 5 reads as duration 0
and the next fresh /play (inserting at slot 0) destroys it. -/
theorem C10_witness :
    exStaleSession.media_data_store = none ∧
    get_duration (some exStaleSession) = 0 ∧
    ∃ st ev, http_handler_play exStaleRaop exPlayReq = some (st, ev) ∧
      st.airplay_video[5]? = some none := by
  obtain ⟨h0, h1, h2, h3, h4⟩ := C10_duration_item0
  refine ⟨rfl, h1 exStaleSession rfl, _, _, rfl, ?_⟩
  exact h4 exStaleRaop exPlayReq exAsid exUuid 0 (by decide) rfl (by decide) rfl rfl
    (by decide) (by decide) (by decide) (by decide) 5 exStaleSession (by decide) rfl
    (by decide) _ _ rfl

theorem set_connection_type_idem (conns : List (Nat × connection_type_t))
    (i : Nat) (t : connection_type_t) :
    httpd_set_connection_type (httpd_set_connection_type conns i t) i t =
      httpd_set_connection_type conns i t := by
  unfold httpd_set_connection_type
  rw [List.map_map]
  apply List.map_congr_left
  intro p _
  by_cases hp : p.1 = i <;> simp [hp]

/-- C9, claim as stated, refuted: on the sole forward connection the first
POST /reverse responds 101 Switching Protocols, but a second POST /reverse
on the same, already upgraded connection again responds 101 (the handler
re-tags the connection and still counts one PTTH connection), not an error
status. -/
theorem C9_counterexample :
    (http_handler_reverse [(0, .CONNECTION_TYPE_UNKNOWN)] 0).2.status =
      some (101, "Switching Protocols") ∧
    (http_handler_reverse
        (http_handler_reverse [(0, .CONNECTION_TYPE_UNKNOWN)] 0).1 0).2.status =
      some (101, "Switching Protocols") := by
  constructor
  · rfl
  · rfl

/-- C9 (amended): a POST /reverse first tags the connection PTTH; when
exactly one connection then carries the PTTH tag it responds 101 Switching
Protocols with `Connection: Upgrade` and `Upgrade: PTTH/1.0` (in
particular, the first /reverse of the sole forward connection); otherwise
it leaves the response untouched (the violation is only logged), and the
tag written on the connection persists either way.  A repeated /reverse on
the same connection is idempotent: it returns the identical response and
state, 101 again rather than an error. -/
theorem C9_reverse_upgrade (conns : List (Nat × connection_type_t)) (connId : Nat) :
    (httpd_count_connection_type
        (httpd_set_connection_type conns connId .CONNECTION_TYPE_PTTH)
        .CONNECTION_TYPE_PTTH = 1 →
      http_handler_reverse conns connId =
        (httpd_set_connection_type conns connId .CONNECTION_TYPE_PTTH,
         { status := some (101, "Switching Protocols")
           headers := [("Connection", "Upgrade"), ("Upgrade", "PTTH/1.0")] })) ∧
    (httpd_count_connection_type
        (httpd_set_connection_type conns connId .CONNECTION_TYPE_PTTH)
        .CONNECTION_TYPE_PTTH ≠ 1 →
      http_handler_reverse conns connId =
        (httpd_set_connection_type conns connId .CONNECTION_TYPE_PTTH,
         { status := none, headers := [] })) ∧
    http_handler_reverse (http_handler_reverse conns connId).1 connId =
      http_handler_reverse conns connId := by
  refine ⟨?_, ?_, ?_⟩
  · intro h
    unfold http_handler_reverse
    rw [if_pos h]
  · intro h
    unfold http_handler_reverse
    rw [if_neg h]
  · have hfst : (http_handler_reverse conns connId).1 =
        httpd_set_connection_type conns connId .CONNECTION_TYPE_PTTH := by
      unfold http_handler_reverse
      by_cases hc : httpd_count_connection_type
          (httpd_set_connection_type conns connId .CONNECTION_TYPE_PTTH)
          .CONNECTION_TYPE_PTTH = 1
      · rw [if_pos hc]
      · rw [if_neg hc]
    rw [hfst]
    unfold http_handler_reverse
    simp only [set_connection_type_idem]

/-- Witness for C9 (amended): on a single fresh connection the first
/reverse responds 101 with both upgrade headers, and a repeated /reverse
returns the identical response and state. -/
theorem C9_witness :
    http_handler_reverse [(0, .CONNECTION_TYPE_UNKNOWN)] 0 =
      ([(0, .CONNECTION_TYPE_PTTH)],
       { status := some (101, "Switching Protocols")
         headers := [("Connection", "Upgrade"), ("Upgrade", "PTTH/1.0")] }) ∧
    http_handler_reverse (http_handler_reverse [(0, .CONNECTION_TYPE_UNKNOWN)] 0).1 0 =
      http_handler_reverse [(0, .CONNECTION_TYPE_UNKNOWN)] 0 := by
  obtain ⟨h1, h2, h3⟩ := C9_reverse_upgrade [(0, .CONNECTION_TYPE_UNKNOWN)] 0
  exact ⟨h1 (by decide), h3⟩

/-- A successful `set_language_name` stores exactly the given name. -/
theorem set_language_name_some (s s1 : airplay_video_t) (v : Str)
    (h : set_language_name s v = some s1) :
    s1 = { s with language_name := some v } := by
  unfold set_language_name at h
  split at h
  · exact (Option.some.inj h).symm
  · cases h

/-- A successful `set_language_code` stores exactly the given code. -/
theorem set_language_code_some (s s1 : airplay_video_t) (v : Str)
    (h : set_language_code s v = some s1) :
    s1 = { s with language_code := some v } := by
  unfold set_language_code at h
  split at h
  · exact (Option.some.inj h).symm
  · cases h

/-- C1, claim as stated, refuted: the session has stored language name
"English" and a slice whose NAME equals it, so by the claimed priority the
emitted language must be English; but the operator preference list "fr"
matches the French slice and the code's preference scan runs first, so the
sliced output keeps the French slice and the stored language becomes
"Francais". -/
theorem C1_counterexample :
    spec_language_choice c1session.language_name c1session.lang c1groups = some c1en ∧
    c1en.name = "English".toList ∧
    c1session.language_name = some "English".toList ∧
    (select_master_playlist_language c1session "P\n".toList c1groups "T\n".toList).map
        (fun r => r.2.language_name) = some (some "Francais".toList) ∧
    (select_master_playlist_language c1session "P\n".toList c1groups "T\n".toList).map
        (fun r => r.1) = some "P\nF\nT\n".toList ∧
    "Francais".toList ≠ "English".toList := by
  decide

/-- C1 (amended): in master-playlist language selection the operator
preference list is consulted FIRST: a language whose 2-character code
matches a colon-separated token wins regardless of any stored
`language_name`.  Only when no preference token matches is the fallback
used: with a stored `language_name`, the last group slice whose NAME
equals it; without one, the last slice marked DEFAULT — and when a stored
`language_name` matches no slice the selection aborts on
`assert(i_default >= 0)` even if the preference list would match.  The
output keeps the prelude, the slices of the chosen language, and the
tail. -/
theorem C1_language_priority (s : airplay_video_t) (pre tl : Str)
    (langs : List language_t) (hne : langs ≠ []) :
    (pick_i_default s.language_name
        (langs.take (langs.length / language_copies langs)) = none →
      select_master_playlist_language s pre langs tl = none) ∧
    (∀ out s', select_master_playlist_language s pre langs tl = some (out, s') →
      ∃ chosen dflt,
        pick_i_default s.language_name
          (langs.take (langs.length / language_copies langs)) = some dflt ∧
        chosen = (pref_choice s.lang
          (langs.take (langs.length / language_copies langs))).getD dflt ∧
        (∀ g, pref_choice s.lang
            (langs.take (langs.length / language_copies langs)) = some g →
          chosen = g) ∧
        s'.language_name = some chosen.name ∧
        s'.language_code = some chosen.code ∧
        out = pre ++
          ((langs.filter (fun g =>
            g.code = [] ∨ g.code = chosen.code)).map language_t.text).flatten ++ tl) := by
  constructor
  · intro hpick
    unfold select_master_playlist_language
    rw [if_neg hne]
    by_cases hcop : language_copies langs = 0
    · simp [hcop]
    · simp only [hcop, ite_false, if_neg]
      split
      · rfl
      · split
        · rfl
        · rw [hpick]
  · intro out s' h
    unfold select_master_playlist_language at h
    rw [if_neg hne] at h
    by_cases hcop : language_copies langs = 0
    · simp [hcop] at h
    · simp only [hcop, ite_false, if_neg] at h
      split at h
      · cases h
      · split at h
        · cases h
        · cases hpick : pick_i_default s.language_name
            (langs.take (langs.length / language_copies langs)) with
          | none => rw [hpick] at h; cases h
          | some dflt =>
            rw [hpick] at h
            simp only [] at h
            cases hs1 : set_language_name s
                ((pref_choice s.lang
                  (langs.take (langs.length / language_copies langs))).getD dflt).name with
            | none => rw [hs1] at h; cases h
            | some s1 =>
              rw [hs1] at h
              simp only [] at h
              cases hs2 : set_language_code s1
                  ((pref_choice s.lang
                    (langs.take (langs.length / language_copies langs))).getD dflt).code with
              | none => rw [hs2] at h; cases h
              | some s2 =>
                rw [hs2] at h
                injection h with hpair
                injection hpair with hout hs
                subst hout
                subst hs
                obtain rfl := set_language_name_some _ _ _ hs1
                obtain rfl := set_language_code_some _ _ _ hs2
                refine ⟨(pref_choice s.lang
                    (langs.take (langs.length / language_copies langs))).getD dflt,
                  dflt, rfl, rfl, ?_, rfl, rfl, rfl⟩
                intro g hg
                rw [hg]
                rfl

/-- Witness for C1 (amended) at the concrete example: no name is stored,
the preference list is "fr", and the French slices are emitted with the
session updated to Francais/fr. -/
theorem C1_witness :
    ∃ chosen dflt,
      pick_i_default (none : Option Str) c1groups = some dflt ∧
      chosen = (pref_choice (some "fr".toList) c1groups).getD dflt ∧
      ({ c1session with language_name := none } : airplay_video_t).language_name = none ∧
      ∃ out s', select_master_playlist_language { c1session with language_name := none }
          "P\n".toList c1groups "T\n".toList = some (out, s') ∧
        s'.language_name = some chosen.name := by
  obtain ⟨habort, hsome⟩ :=
    C1_language_priority { c1session with language_name := none }
      "P\n".toList "T\n".toList c1groups (by decide)
  obtain ⟨chosen, dflt, h1, h2, h3, h4, h5, h6⟩ := hsome _ _ rfl
  exact ⟨chosen, dflt, h1, h2, rfl, _, _, rfl, h4⟩

theorem firstOcc_of_isPrefixOf {pat s : Str} (hne : pat ≠ [])
    (h : pat.isPrefixOf s) : firstOcc pat s = some 0 := by
  cases s with
  | nil =>
    cases pat with
    | nil => exact absurd rfl hne
    | cons p pt => simp [List.isPrefixOf] at h
  | cons c rest =>
    unfold firstOcc
    rw [if_pos h]

theorem countOcc_cons (pat : Str) (c : Char) (rest : Str) :
    countOcc pat (c :: rest) =
      (if pat.isPrefixOf (c :: rest) then 1 else 0) + countOcc pat rest := rfl

theorem firstOcc_cons (pat : Str) (c : Char) (rest : Str) :
    firstOcc pat (c :: rest) =
      if pat.isPrefixOf (c :: rest) then some 0
      else (firstOcc pat rest).map (· + 1) := rfl

theorem countOcc_headfree {p : Char} {pt a b : Str} (hfree : ∀ c ∈ a, c ≠ p) :
    countOcc (p :: pt) (a ++ b) = countOcc (p :: pt) b := by
  induction a with
  | nil => rfl
  | cons c t ih =>
    have hc : c ≠ p := hfree c (by simp)
    have hpre : ¬ (p :: pt).isPrefixOf (c :: (t ++ b)) := by
      simp [List.isPrefixOf]
      intro he
      exact absurd he.symm hc
    show countOcc (p :: pt) (c :: (t ++ b)) = _
    rw [countOcc_cons, if_neg hpre]
    simp only [Nat.zero_add]
    exact ih (fun c hm => hfree c (by simp [hm]))

theorem countOcc_skip_block {p : Char} {pt b : Str} {x : Char} {t : Str}
    (hpre : ¬ (p :: pt).isPrefixOf (x :: (t ++ b)))
    (hfree : ∀ c ∈ t, c ≠ p) :
    countOcc (p :: pt) ((x :: t) ++ b) = countOcc (p :: pt) b := by
  show countOcc (p :: pt) (x :: (t ++ b)) = _
  rw [countOcc_cons, if_neg hpre]
  simp only [Nat.zero_add]
  exact countOcc_headfree hfree

theorem countOcc_hit_block {p : Char} {pt b : Str} {x : Char} {t : Str}
    (hpre : (p :: pt).isPrefixOf (x :: (t ++ b)))
    (hfree : ∀ c ∈ t, c ≠ p) :
    countOcc (p :: pt) ((x :: t) ++ b) = countOcc (p :: pt) b + 1 := by
  show countOcc (p :: pt) (x :: (t ++ b)) = _
  rw [countOcc_cons, if_pos hpre, countOcc_headfree hfree]
  omega

theorem firstOcc_skip_block {p : Char} {pt b : Str} {x : Char} {t : Str}
    (hpre : ¬ (p :: pt).isPrefixOf (x :: (t ++ b)))
    (hfree : ∀ c ∈ t, c ≠ p) :
    firstOcc (p :: pt) ((x :: t) ++ b) =
      (firstOcc (p :: pt) b).map ((x :: t).length + ·) := by
  show firstOcc (p :: pt) (x :: (t ++ b)) = _
  rw [firstOcc_cons, if_neg hpre, firstOcc_append_headfree hfree, Option.map_map]
  cases firstOcc (p :: pt) b with
  | none => rfl
  | some k =>
    simp only [Option.map_some', Function.comp_apply, List.length_cons]
    congr 1
    omega

theorem mem_intercalate_single {x : Char} {L : List Str} {c : Char}
    (h : c ∈ List.intercalate [x] L) : c = x ∨ ∃ l ∈ L, c ∈ l := by
  induction L with
  | nil => simp [List.intercalate] at h
  | cons a L ih =>
    cases L with
    | nil =>
      simp [List.intercalate] at h
      exact Or.inr ⟨a, by simp, h⟩
    | cons b L' =>
      rw [show List.intercalate [x] (a :: b :: L') =
            a ++ x :: List.intercalate [x] (b :: L') by
          simp [List.intercalate, List.intersperse]] at h
      rcases List.mem_append.mp h with ha | hx
      · exact Or.inr ⟨a, by simp, ha⟩
      · rcases List.mem_cons.mp hx with rfl | hrest
        · exact Or.inl rfl
        · rcases ih hrest with h1 | ⟨l, hl, hc⟩
          · exact Or.inl h1
          · exact Or.inr ⟨l, by simp [hl], hc⟩

theorem findFrom_split {pat s c r : Str} {i k : Nat}
    (hd : s.drop i = c ++ r) (hc : firstOcc pat c = some k)
    (hk : k + pat.length ≤ c.length) :
    findFrom pat s i = some (k + i) := by
  unfold findFrom
  rw [hd, firstOcc_append_left hc hk]
  rfl

theorem findFrom_headfree {p : Char} {pt s a b : Str} {i k : Nat}
    (hd : s.drop i = a ++ b) (hfree : ∀ c ∈ a, c ≠ p)
    (hb : firstOcc (p :: pt) b = some k) :
    findFrom (p :: pt) s i = some (a.length + k + i) := by
  unfold findFrom
  rw [hd, firstOcc_append_headfree hfree, hb]
  rfl

theorem length_le_flatten_map {α : Type} (f : α → Str) (cs : List α)
    (h : ∀ c ∈ cs, 1 ≤ (f c).length) : cs.length ≤ (cs.map f).flatten.length := by
  induction cs with
  | nil => simp
  | cons c t ih =>
    simp only [List.map_cons, List.flatten_cons, List.length_append, List.length_cons]
    have := h c (by simp)
    have := ih (fun c hm => h c (by simp [hm]))
    omega

theorem take_len_left {a : Str} {n : Nat} (h : a.length = n) (b : Str) :
    (a ++ b).take n = a := by
  subst h; exact List.take_left a b

theorem drop_len_left {a : Str} {n : Nat} (h : a.length = n) (b : Str) :
    (a ++ b).drop n = b := by
  subst h; exact List.drop_left a b

theorem intercalate_cons₂ {x : Char} (a b : Str) (l : List Str) :
    List.intercalate [x] (a :: b :: l) = a ++ x :: List.intercalate [x] (b :: l) := by
  simp [List.intercalate, List.intersperse]

theorem intercalate_single {x : Char} (a : Str) :
    List.intercalate [x] [a] = a := by
  simp [List.intercalate]

theorem paramPass_run (mp : Str) :
    ∀ (toks comps : List Str) (oldPos : Nat) (out rest2 : Str),
    toks ≠ [] → comps.length = toks.length →
    mp.drop oldPos = List.intercalate ['/'] comps ++ '\n' :: rest2 →
    "#EXT".toList.isPrefixOf rest2 →
    (∀ d ∈ comps, ∀ c ∈ d, c ≠ '#' ∧ c ≠ '/') →
    paramPass mp toks oldPos out =
      some (out ++ (List.zipWith (fun t d => '/' :: (t ++ '/' :: d)) toks comps).flatten
              ++ ['\n'],
            oldPos + (List.intercalate ['/'] comps).length + 1) := by
  intro toks
  induction toks with
  | nil => intro _ _ _ _ hne _; exact absurd rfl hne
  | cons t ts ih =>
    intro comps oldPos out rest2 _ hlen hdrop hpre hcomps
    cases comps with
    | nil => simp at hlen
    | cons d ds =>
      cases ts with
      | nil =>
        have hds : ds = [] := by
          simpa using hlen
        subst hds
        rw [intercalate_single] at hdrop ⊢
        have hdrop' : mp.drop oldPos = (d ++ ['\n']) ++ rest2 := by
          rw [hdrop]; simp
        have hfind : findFrom "#EXT".toList mp oldPos =
            some ((d ++ ['\n']).length + 0 + oldPos) := by
          rw [show "#EXT".toList = '#' :: "EXT".toList from rfl]
          refine findFrom_headfree hdrop' ?_ ?_
          · intro c hc
            rcases List.mem_append.mp hc with h1 | h2
            · exact (hcomps d (by simp) c h1).1
            · simp at h2; subst h2; decide
          · exact firstOcc_of_isPrefixOf (by decide)
              (by rw [show ('#' :: "EXT".toList : Str) = "#EXT".toList from rfl]; exact hpre)
        have hfind' : findFrom "#EXT".toList mp oldPos =
            some (oldPos + (d.length + 1)) := by
          rw [hfind]; congr 1; simp; omega
        simp only [paramPass]
        rw [hfind']
        simp only []
        have hseg : seg mp oldPos (oldPos + (d.length + 1) - oldPos) = d ++ ['\n'] := by
          unfold seg
          rw [hdrop']
          rw [Nat.add_sub_cancel_left]
          exact take_len_left (by simp) rest2
        rw [hseg]
        refine congrArg some ?_
        refine Prod.ext ?_ ?_
        · simp
        · omega
      | cons t2 ts' =>
        cases ds with
        | nil => simp at hlen
        | cons d2 ds' =>
          rw [intercalate_cons₂] at hdrop ⊢
          have hdrop' : mp.drop oldPos =
              d ++ '/' :: (List.intercalate ['/'] (d2 :: ds') ++ '\n' :: rest2) := by
            rw [hdrop]; simp
          have hfind : findFrom ['/'] mp oldPos =
              some (d.length + 0 + oldPos) := by
            refine findFrom_headfree (b := '/' :: (List.intercalate ['/'] (d2 :: ds') ++ '\n' :: rest2)) hdrop' ?_ ?_
            · intro c hc
              exact (hcomps d (by simp) c hc).2
            · exact firstOcc_of_isPrefixOf (by decide) (by simp [List.isPrefixOf])
          have hfind' : findFrom ['/'] mp oldPos = some (oldPos + d.length) := by
            rw [hfind]; congr 1; omega
          simp only [paramPass]
          rw [hfind']
          simp only []
          have hseg : seg mp oldPos (oldPos + d.length - oldPos) = d := by
            unfold seg
            rw [hdrop']
            rw [Nat.add_sub_cancel_left]
            exact take_len_left rfl _
          rw [hseg]
          have hdrop2 : mp.drop (oldPos + d.length + 1) =
              List.intercalate ['/'] (d2 :: ds') ++ '\n' :: rest2 := by
            have h1 : mp.drop (oldPos + d.length + 1) =
                (mp.drop oldPos).drop (d.length + 1) := by
              rw [List.drop_drop]; congr 1
            rw [h1, hdrop']
            have h2 : (d ++ '/' :: (List.intercalate ['/'] (d2 :: ds') ++ '\n' :: rest2)) =
                (d ++ ['/']) ++ (List.intercalate ['/'] (d2 :: ds') ++ '\n' :: rest2) := by
              simp
            rw [h2]
            exact drop_len_left (by simp) _
          have := ih (d2 :: ds') (oldPos + d.length + 1)
            (out ++ ['/'] ++ t ++ ['/'] ++ d) rest2
            (by simp) (by simpa using hlen) hdrop2 hpre
            (fun e he c hc => hcomps e (by simp [List.mem_cons.mp he]) c hc)
          rw [this]
          refine congrArg some ?_
          refine Prod.ext ?_ ?_
          · simp
          · simp only [List.length_append, List.length_cons]
            omega

theorem chunkLoop_run (mp base : Str) (p1 p2 : Char) (toks : List Str)
    (htoks : toks ≠ [])
    (hp1 : ∀ c ∈ "#EXTINF:\n".toList, c ≠ p1) :
    ∀ (cs : List (Str × List Str)) (fuel : Nat) (pos : Nat) (out : Str),
    cs.length < fuel →
    mp.drop pos = (cs.map (fun c => condensedChunk [p1, p2] c.1 c.2)).flatten ++
      "#EXT-X-ENDLIST\n".toList →
    (∀ ch ∈ cs, ch.2.length = toks.length ∧
       (∀ d ∈ ch.2, ∀ c ∈ d, c ≠ '#' ∧ c ≠ '/') ∧
       (∀ c ∈ ch.1, c ≠ '#' ∧ c ≠ p1)) →
    chunkLoop mp base [p1, p2] toks fuel
        (if cs = [] then none else some pos) pos out =
      some (out ++ (cs.map (fun c => expandedChunk base toks c.1 c.2)).flatten,
            pos + ((cs.map (fun c => condensedChunk [p1, p2] c.1 c.2)).flatten).length) := by
  intro cs
  induction cs with
  | nil =>
    intro fuel pos out hfuel hdrop hch
    rw [if_pos rfl]
    simp only [chunkLoop, List.map_nil, List.flatten_nil, List.append_nil, List.length_nil,
      Nat.add_zero]
  | cons ch cs' ih =>
    intro fuel pos out hfuel hdrop hch
    obtain ⟨ext, comps⟩ := ch
    cases fuel with
    | zero => simp at hfuel
    | succ f =>
      rw [if_neg (by simp)]
      have h8 : ("#EXTINF:".toList).length = 8 := rfl
      have hdropA : mp.drop pos =
          ("#EXTINF:".toList ++ ext ++ ['\n']) ++
            ([p1, p2] ++ (List.intercalate ['/'] comps ++ '\n' ::
              ((cs'.map (fun c => condensedChunk [p1, p2] c.1 c.2)).flatten ++
                "#EXT-X-ENDLIST\n".toList))) := by
        rw [hdrop]
        simp [condensedChunk, List.append_assoc]
      have hchh := hch (ext, comps) (by simp)
      have hcompsfree : ∀ d ∈ comps, ∀ c ∈ d, c ≠ '#' ∧ c ≠ '/' := hchh.2.1
      have hextfree : ∀ c ∈ ext, c ≠ '#' ∧ c ≠ p1 := hchh.2.2
      have hfind_pfx : findFrom [p1, p2] mp pos =
          some (("#EXTINF:".toList ++ ext ++ ['\n']).length + 0 + pos) := by
        refine findFrom_headfree hdropA ?_ ?_
        · intro c hc
          rcases List.mem_append.mp hc with h1 | h2
          · rcases List.mem_append.mp h1 with h3 | h4
            · exact hp1 c ((by decide : "#EXTINF:".toList ⊆ "#EXTINF:\n".toList) h3)
            · exact (hextfree c h4).2
          · simp at h2
            subst h2
            exact hp1 '\n' (by decide)
        · exact firstOcc_of_isPrefixOf (by simp)
            (by simp [List.isPrefixOf])
      have hfind_pfx' : findFrom [p1, p2] mp pos = some (pos + (9 + ext.length)) := by
        rw [hfind_pfx]
        congr 1
        simp [h8]
        omega
      simp only [chunkLoop]
      rw [hfind_pfx']
      simp only []
      have hsub : pos + (9 + ext.length) - pos = 9 + ext.length := by omega
      rw [hsub]
      have hl2 : ([p1, p2] : Str).length = 2 := rfl
      rw [hl2]
      have hseg : seg mp pos (9 + ext.length) = "#EXTINF:".toList ++ ext ++ ['\n'] := by
        unfold seg
        rw [hdropA]
        refine take_len_left ?_ _
        simp [h8]
        omega
      rw [hseg]
      have hdrop1 : mp.drop (pos + (9 + ext.length) + 2) =
          List.intercalate ['/'] comps ++ '\n' ::
            ((cs'.map (fun c => condensedChunk [p1, p2] c.1 c.2)).flatten ++
              "#EXT-X-ENDLIST\n".toList) := by
        have h1 : mp.drop (pos + (9 + ext.length) + 2) =
            (mp.drop pos).drop (9 + ext.length + 2) := by
          rw [List.drop_drop]
          congr 1
        rw [h1, hdropA]
        have h2 : (("#EXTINF:".toList ++ ext ++ ['\n']) ++
            ([p1, p2] ++ (List.intercalate ['/'] comps ++ '\n' ::
              ((cs'.map (fun c => condensedChunk [p1, p2] c.1 c.2)).flatten ++
                "#EXT-X-ENDLIST\n".toList)))) =
            (("#EXTINF:".toList ++ ext ++ ['\n']) ++ [p1, p2]) ++
            (List.intercalate ['/'] comps ++ '\n' ::
              ((cs'.map (fun c => condensedChunk [p1, p2] c.1 c.2)).flatten ++
                "#EXT-X-ENDLIST\n".toList)) := by
          simp [List.append_assoc]
        rw [h2]
        refine drop_len_left ?_ _
        simp [h8]
        omega
      have hrest_pre : "#EXT".toList.isPrefixOf
          ((cs'.map (fun c => condensedChunk [p1, p2] c.1 c.2)).flatten ++
            "#EXT-X-ENDLIST\n".toList) := by
        cases cs' with
        | nil =>
          simp only [List.map_nil, List.flatten_nil, List.nil_append]
          decide
        | cons ch2 cs'' =>
          have hshape : (((ch2 :: cs'').map (fun c => condensedChunk [p1, p2] c.1 c.2)).flatten ++
              "#EXT-X-ENDLIST\n".toList) =
              "#EXTINF:".toList ++ (ch2.1 ++ ['\n'] ++ ([p1, p2] ++
                (List.intercalate ['/'] ch2.2 ++ ['\n'] ++
                ((cs''.map (fun c => condensedChunk [p1, p2] c.1 c.2)).flatten ++
                  "#EXT-X-ENDLIST\n".toList)))) := by
            simp [condensedChunk, List.append_assoc]
          rw [hshape]
          rw [show ("#EXTINF:".toList ++ (ch2.1 ++ ['\n'] ++ ([p1, p2] ++
                (List.intercalate ['/'] ch2.2 ++ ['\n'] ++
                ((cs''.map (fun c => condensedChunk [p1, p2] c.1 c.2)).flatten ++
                  "#EXT-X-ENDLIST\n".toList))))) =
              "#EXTINF:".toList ++ (ch2.1 ++ ['\n'] ++ ([p1, p2] ++
                (List.intercalate ['/'] ch2.2 ++ ['\n'] ++
                ((cs''.map (fun c => condensedChunk [p1, p2] c.1 c.2)).flatten ++
                  "#EXT-X-ENDLIST\n".toList)))) from rfl]
          rw [isPrefixOf_append_of_le (by decide)]
          decide
      have hpp := paramPass_run mp toks comps (pos + (9 + ext.length) + 2)
        (out ++ ("#EXTINF:".toList ++ ext ++ ['\n']) ++ base)
        ((cs'.map (fun c => condensedChunk [p1, p2] c.1 c.2)).flatten ++
          "#EXT-X-ENDLIST\n".toList)
        htoks hchh.1 hdrop1 hrest_pre hcompsfree
      rw [hpp]
      simp only []
      have hfree2 : ∀ c ∈ List.intercalate ['/'] comps ++ ['\n'], c ≠ '#' := by
        intro c hc
        rcases List.mem_append.mp hc with h1 | h2
        · rcases mem_intercalate_single h1 with rfl | ⟨l, hl, hcl⟩
          · decide
          · exact (hcompsfree l hl c hcl).1
        · simp at h2
          subst h2
          decide
      have hdrop1' : mp.drop (pos + (9 + ext.length) + 2) =
          (List.intercalate ['/'] comps ++ ['\n']) ++
            ((cs'.map (fun c => condensedChunk [p1, p2] c.1 c.2)).flatten ++
              "#EXT-X-ENDLIST\n".toList) := by
        rw [hdrop1]
        simp
      have hptr1 : findFrom "#EXTINF:".toList mp (pos + (9 + ext.length) + 2) =
          (if cs' = [] then none
           else some (pos + (9 + ext.length) + 2 +
             (List.intercalate ['/'] comps).length + 1)) := by
        cases cs' with
        | nil =>
          rw [if_pos rfl]
          unfold findFrom
          rw [hdrop1']
          rw [show "#EXTINF:".toList = '#' :: "EXTINF:".toList from rfl]
          rw [firstOcc_append_headfree hfree2]
          simp only [List.map_nil, List.flatten_nil, List.nil_append]
          rw [show firstOcc ('#' :: "EXTINF:".toList) "#EXT-X-ENDLIST\n".toList =
            none from by decide]
          rfl
        | cons ch2 cs'' =>
          rw [if_neg (by simp)]
          have hshape : (((ch2 :: cs'').map (fun c => condensedChunk [p1, p2] c.1 c.2)).flatten ++
              "#EXT-X-ENDLIST\n".toList) =
              "#EXTINF:".toList ++ (ch2.1 ++ ['\n'] ++ ([p1, p2] ++
                (List.intercalate ['/'] ch2.2 ++ ['\n'] ++
                ((cs''.map (fun c => condensedChunk [p1, p2] c.1 c.2)).flatten ++
                  "#EXT-X-ENDLIST\n".toList)))) := by
            simp [condensedChunk, List.append_assoc]
          have hocc : firstOcc ('#' :: "EXTINF:".toList)
              (((ch2 :: cs'').map (fun c => condensedChunk [p1, p2] c.1 c.2)).flatten ++
                "#EXT-X-ENDLIST\n".toList) = some 0 := by
            rw [hshape]
            refine firstOcc_of_isPrefixOf (by simp) ?_
            rw [show ('#' :: "EXTINF:".toList : Str) = "#EXTINF:".toList from rfl]
            rw [isPrefixOf_append_of_le (by decide)]
            decide
          unfold findFrom
          rw [hdrop1']
          rw [show "#EXTINF:".toList = '#' :: "EXTINF:".toList from rfl]
          rw [firstOcc_append_headfree hfree2, hocc]
          simp only [Option.map_some']
          congr 1
          simp
          omega
      rw [hptr1]
      have hfuel' : cs'.length < f := by
        simp at hfuel
        omega
      have hdrop2 : mp.drop (pos + (9 + ext.length) + 2 +
          (List.intercalate ['/'] comps).length + 1) =
          (cs'.map (fun c => condensedChunk [p1, p2] c.1 c.2)).flatten ++
            "#EXT-X-ENDLIST\n".toList := by
        have h1 : mp.drop (pos + (9 + ext.length) + 2 +
            (List.intercalate ['/'] comps).length + 1) =
            (mp.drop (pos + (9 + ext.length) + 2)).drop
              ((List.intercalate ['/'] comps).length + 1) := by
          rw [List.drop_drop]
          congr 1
        rw [h1, hdrop1']
        refine drop_len_left ?_ _
        simp
      have hch' : ∀ ch ∈ cs', ch.2.length = toks.length ∧
          (∀ d ∈ ch.2, ∀ c ∈ d, c ≠ '#' ∧ c ≠ '/') ∧
          (∀ c ∈ ch.1, c ≠ '#' ∧ c ≠ p1) :=
        fun ch hm => hch ch (by simp [hm])
      rw [ih f (pos + (9 + ext.length) + 2 +
        (List.intercalate ['/'] comps).length + 1)
        (out ++ ("#EXTINF:".toList ++ ext ++ ['\n']) ++ base ++
          (List.zipWith (fun t d => '/' :: (t ++ '/' :: d)) toks comps).flatten ++ ['\n'])
        hfuel' hdrop2 hch']
      refine congrArg some ?_
      refine Prod.ext ?_ ?_
      · simp [expandedChunk, List.append_assoc]
      · simp only [List.map_cons, List.flatten_cons, List.length_append, condensedChunk, h8,
          List.length_cons, List.length_nil]
        simp [h8]
        omega

theorem countOcc_chunks (p1 p2 : Char) (hp1 : p1 ≠ '#') (hp2 : p2 ≠ '#') :
    ∀ cs : List (Str × List Str),
    (∀ ch ∈ cs, (∀ c ∈ ch.1, c ≠ '#') ∧ (∀ d ∈ ch.2, ∀ c ∈ d, c ≠ '#')) →
    countOcc "#EXTINF".toList
      ((cs.map (fun c => condensedChunk [p1, p2] c.1 c.2)).flatten ++
        "#EXT-X-ENDLIST\n".toList) = cs.length := by
  intro cs
  induction cs with
  | nil =>
    intro _
    simp only [List.map_nil, List.flatten_nil, List.nil_append, List.length_nil]
    decide
  | cons ch cs' ih =>
    intro hch
    obtain ⟨ext, comps⟩ := ch
    have hshape : (((ext, comps) :: cs').map
          (fun c => condensedChunk [p1, p2] c.1 c.2)).flatten ++
        "#EXT-X-ENDLIST\n".toList =
        ('#' :: ("EXTINF:".toList ++ ext ++ '\n' :: p1 :: p2 ::
          (List.intercalate ['/'] comps ++ ['\n']))) ++
        ((cs'.map (fun c => condensedChunk [p1, p2] c.1 c.2)).flatten ++
          "#EXT-X-ENDLIST\n".toList) := by
      simp [condensedChunk, List.append_assoc]
    rw [hshape]
    rw [show "#EXTINF".toList = '#' :: "EXTINF".toList from rfl]
    rw [countOcc_hit_block ?hpre ?hfree]
    case hpre =>
      rw [List.isPrefixOf_iff_prefix]
      refine List.IsPrefix.trans (show "#EXTINF".toList <+: "#EXTINF:".toList from
        ⟨[':'], by decide⟩) ?_
      exact ⟨ext ++ '\n' :: p1 :: p2 :: (List.intercalate ['/'] comps ++ ['\n']) ++
        ((cs'.map (fun c => condensedChunk [p1, p2] c.1 c.2)).flatten ++
          "#EXT-X-ENDLIST\n".toList), by simp [List.append_assoc]⟩
    case hfree =>
      have hc := hch (ext, comps) (by simp)
      intro c hc2
      rcases List.mem_append.mp hc2 with h1 | h2
      · rcases List.mem_append.mp h1 with h3 | h4
        · exact fun he => by subst he; revert h3; decide
        · exact hc.1 c h4
      · rcases List.mem_cons.mp h2 with rfl | h5
        · decide
        · rcases List.mem_cons.mp h5 with rfl | h6
          · exact hp1
          · rcases List.mem_cons.mp h6 with rfl | h7
            · exact hp2
            · rcases List.mem_append.mp h7 with h8 | h9
              · rcases mem_intercalate_single h8 with rfl | ⟨l, hl, hcl⟩
                · decide
                · exact (hc.2 l hl c hcl)
              · simp at h9
                subst h9
                decide
    rw [show ('#' :: "EXTINF".toList : Str) = "#EXTINF".toList from rfl]
    rw [ih (fun ch hm => hch ch (by simp [hm]))]
    simp

theorem zip_inter_len :
    ∀ (toks comps : List Str), toks ≠ [] → comps.length = toks.length →
    ((List.zipWith (fun t d => '/' :: (t ++ '/' :: d)) toks comps).flatten).length =
      (List.intercalate [','] toks).length + (List.intercalate ['/'] comps).length + 2 := by
  intro toks
  induction toks with
  | nil => intro _ h _; exact absurd rfl h
  | cons t ts ih =>
    intro comps _ hlen
    cases comps with
    | nil => simp at hlen
    | cons d ds =>
      cases ts with
      | nil =>
        have : ds = [] := by simpa using hlen
        subst this
        simp [intercalate_single]
        omega
      | cons t2 ts' =>
        cases ds with
        | nil => simp at hlen
        | cons d2 ds' =>
          rw [intercalate_cons₂, intercalate_cons₂]
          have := ih (d2 :: ds') (by simp) (by simpa using hlen)
          simp only [List.zipWith_cons_cons, List.flatten_cons, List.length_append,
            List.length_cons] at this ⊢
          omega

theorem expandedChunk_length (base : Str) (toks : List Str) (ext : Str) (comps : List Str)
    (p1 p2 : Char) (htoks : toks ≠ []) (hlen : comps.length = toks.length) :
    (expandedChunk base toks ext comps).length =
      (condensedChunk [p1, p2] ext comps).length +
        base.length + (List.intercalate [','] toks).length := by
  have hz := zip_inter_len toks comps htoks hlen
  simp only [expandedChunk, condensedChunk, List.length_append, List.length_cons,
    List.length_nil] at hz ⊢
  omega

theorem expandedFlat_length (base : Str) (toks : List Str) (p1 p2 : Char)
    (htoks : toks ≠ []) :
    ∀ (cs : List (Str × List Str)),
    (∀ ch ∈ cs, ch.2.length = toks.length) →
    ((cs.map (fun c => expandedChunk base toks c.1 c.2)).flatten).length =
      ((cs.map (fun c => condensedChunk [p1, p2] c.1 c.2)).flatten).length +
        cs.length * (base.length + (List.intercalate [','] toks).length) := by
  intro cs
  induction cs with
  | nil => intro _; simp
  | cons ch cs' ih =>
    intro hl
    obtain ⟨ext, comps⟩ := ch
    have h1 := expandedChunk_length base toks ext comps p1 p2 htoks
      (hl (ext, comps) (by simp))
    have h2 := ih (fun ch hm => hl ch (by simp [hm]))
    simp only [List.map_cons, List.flatten_cons, List.length_append]
    rw [h1, h2]
    simp only [List.length_cons]
    ring

set_option maxHeartbeats 2000000 in
theorem countOcc_condensed (base : Str) (p1 p2 : Char) (toks : List Str)
    (cs : List (Str × List Str))
    (hbase : ∀ c ∈ base, c ≠ '#')
    (hparams : ∀ c ∈ List.intercalate [','] toks, c ≠ '#')
    (hp1 : p1 ≠ '#') (hp2 : p2 ≠ '#')
    (hch : ∀ ch ∈ cs, (∀ c ∈ ch.1, c ≠ '#') ∧ (∀ d ∈ ch.2, ∀ c ∈ d, c ≠ '#')) :
    countOcc "#EXTINF".toList (condensedInput base toks [p1, p2] cs) = cs.length := by
  have hpre1 : ¬ ('#' :: "EXTINF".toList).isPrefixOf
      ('#' :: ("EXTM3U\n".toList ++ (('#' :: "YT-EXT-CONDENSED-URL:BASE-URI=\"".toList) ++
        (base ++ ("\",PARAMS=\"".toList ++ (List.intercalate [','] toks ++
          ("\",PREFIX=\"".toList ++ ([p1, p2] ++ ("\"\n".toList ++
            ((cs.map (fun c => condensedChunk [p1, p2] c.1 c.2)).flatten ++
              "#EXT-X-ENDLIST\n".toList)))))))))) := by
    show ¬ ("#EXTINF".toList).isPrefixOf
      ("#EXTM3U\n".toList ++ ("#YT-EXT-CONDENSED-URL:BASE-URI=\"".toList ++
        (base ++ ("\",PARAMS=\"".toList ++ (List.intercalate [','] toks ++
          ("\",PREFIX=\"".toList ++ ([p1, p2] ++ ("\"\n".toList ++
            ((cs.map (fun c => condensedChunk [p1, p2] c.1 c.2)).flatten ++
              "#EXT-X-ENDLIST\n".toList)))))))))
    rw [isPrefixOf_append_of_le (by decide)]
    decide
  have hpre2 : ¬ ('#' :: "EXTINF".toList).isPrefixOf
      ('#' :: ("YT-EXT-CONDENSED-URL:BASE-URI=\"".toList ++
        (base ++ ("\",PARAMS=\"".toList ++ (List.intercalate [','] toks ++
          ("\",PREFIX=\"".toList ++ ([p1, p2] ++ ("\"\n".toList ++
            ((cs.map (fun c => condensedChunk [p1, p2] c.1 c.2)).flatten ++
              "#EXT-X-ENDLIST\n".toList))))))))) := by
    show ¬ ("#EXTINF".toList).isPrefixOf
      ("#YT-EXT-CONDENSED-URL:BASE-URI=\"".toList ++
        (base ++ ("\",PARAMS=\"".toList ++ (List.intercalate [','] toks ++
          ("\",PREFIX=\"".toList ++ ([p1, p2] ++ ("\"\n".toList ++
            ((cs.map (fun c => condensedChunk [p1, p2] c.1 c.2)).flatten ++
              "#EXT-X-ENDLIST\n".toList))))))))
    rw [isPrefixOf_append_of_le (by decide)]
    decide
  have e0 : condensedInput base toks [p1, p2] cs =
      ('#' :: "EXTM3U\n".toList) ++ (('#' :: "YT-EXT-CONDENSED-URL:BASE-URI=\"".toList) ++
        (base ++ ("\",PARAMS=\"".toList ++ (List.intercalate [','] toks ++
          ("\",PREFIX=\"".toList ++ ([p1, p2] ++ ("\"\n".toList ++
            ((cs.map (fun c => condensedChunk [p1, p2] c.1 c.2)).flatten ++
              "#EXT-X-ENDLIST\n".toList)))))))) := by
    have e1 : condensedInput base toks [p1, p2] cs =
        "#EXTM3U\n#YT-EXT-CONDENSED-URL:BASE-URI=\"".toList ++
          (base ++ ("\",PARAMS=\"".toList ++ (List.intercalate [','] toks ++
            ("\",PREFIX=\"".toList ++ ([p1, p2] ++ ("\"\n".toList ++
              ((cs.map (fun c => condensedChunk [p1, p2] c.1 c.2)).flatten ++
                "#EXT-X-ENDLIST\n".toList))))))) := rfl
    rw [e1]
    rw [show ("#EXTM3U\n#YT-EXT-CONDENSED-URL:BASE-URI=\"".toList : Str) =
      ('#' :: "EXTM3U\n".toList) ++ ('#' :: "YT-EXT-CONDENSED-URL:BASE-URI=\"".toList)
      from by decide]
    simp [List.append_assoc]
  rw [show ("#EXTINF".toList : Str) = '#' :: "EXTINF".toList from rfl]
  rw [e0]
  rw [countOcc_skip_block hpre1 (by decide)]
  rw [countOcc_skip_block hpre2 (by decide)]
  have hXa : (base ++ ("\",PARAMS=\"".toList ++ (List.intercalate [','] toks ++
        ("\",PREFIX=\"".toList ++ ([p1, p2] ++ ("\"\n".toList ++
          ((cs.map (fun c => condensedChunk [p1, p2] c.1 c.2)).flatten ++
            "#EXT-X-ENDLIST\n".toList))))))) =
      (base ++ ("\",PARAMS=\"".toList ++ (List.intercalate [','] toks ++
        ("\",PREFIX=\"".toList ++ ([p1, p2] ++ "\"\n".toList))))) ++
      ((cs.map (fun c => condensedChunk [p1, p2] c.1 c.2)).flatten ++
        "#EXT-X-ENDLIST\n".toList) := by
    simp [List.append_assoc]
  rw [hXa]
  have hfreeA : ∀ c ∈ (base ++ ("\",PARAMS=\"".toList ++ (List.intercalate [','] toks ++
      ("\",PREFIX=\"".toList ++ ([p1, p2] ++ "\"\n".toList))))), c ≠ '#' := by
    intro c hc
    rcases List.mem_append.mp hc with h1 | h2
    · exact hbase c h1
    · rcases List.mem_append.mp h2 with h3 | h4
      · exact (by decide : ∀ x ∈ ("\",PARAMS=\"".toList : Str), x ≠ '#') c h3
      · rcases List.mem_append.mp h4 with h5 | h6
        · exact hparams c h5
        · rcases List.mem_append.mp h6 with h7 | h8
          · exact (by decide : ∀ x ∈ ("\",PREFIX=\"".toList : Str), x ≠ '#') c h7
          · rcases List.mem_cons.mp h8 with rfl | h9
            · exact hp1
            · rcases List.mem_cons.mp h9 with rfl | h10
              · exact hp2
              · exact (by decide : ∀ x ∈ ("\"\n".toList : Str), x ≠ '#') c
                  (by simpa using h10)
  rw [countOcc_headfree hfreeA]
  rw [show ('#' :: "EXTINF".toList : Str) = "#EXTINF".toList from rfl]
  exact countOcc_chunks p1 p2 hp1 hp2 cs hch

theorem firstOcc_condensed (base : Str) (p1 p2 : Char) (toks : List Str)
    (cs : List (Str × List Str))
    (hbase : ∀ c ∈ base, c ≠ '#')
    (hparams : ∀ c ∈ List.intercalate [','] toks, c ≠ '#')
    (hp1 : p1 ≠ '#') (hp2 : p2 ≠ '#')
    (hcs : cs ≠ []) :
    firstOcc "#EXTINF:".toList (condensedInput base toks [p1, p2] cs) =
      some (64 + base.length + (List.intercalate [','] toks).length) := by
  have hpre1 : ¬ ('#' :: "EXTINF:".toList).isPrefixOf
      ('#' :: ("EXTM3U\n".toList ++ (('#' :: "YT-EXT-CONDENSED-URL:BASE-URI=\"".toList) ++
        (base ++ ("\",PARAMS=\"".toList ++ (List.intercalate [','] toks ++
          ("\",PREFIX=\"".toList ++ ([p1, p2] ++ ("\"\n".toList ++
            ((cs.map (fun c => condensedChunk [p1, p2] c.1 c.2)).flatten ++
              "#EXT-X-ENDLIST\n".toList)))))))))) := by
    show ¬ ("#EXTINF:".toList).isPrefixOf
      ("#EXTM3U\n".toList ++ ("#YT-EXT-CONDENSED-URL:BASE-URI=\"".toList ++
        (base ++ ("\",PARAMS=\"".toList ++ (List.intercalate [','] toks ++
          ("\",PREFIX=\"".toList ++ ([p1, p2] ++ ("\"\n".toList ++
            ((cs.map (fun c => condensedChunk [p1, p2] c.1 c.2)).flatten ++
              "#EXT-X-ENDLIST\n".toList)))))))))
    rw [isPrefixOf_append_of_le (by decide)]
    decide
  have hpre2 : ¬ ('#' :: "EXTINF:".toList).isPrefixOf
      ('#' :: ("YT-EXT-CONDENSED-URL:BASE-URI=\"".toList ++
        (base ++ ("\",PARAMS=\"".toList ++ (List.intercalate [','] toks ++
          ("\",PREFIX=\"".toList ++ ([p1, p2] ++ ("\"\n".toList ++
            ((cs.map (fun c => condensedChunk [p1, p2] c.1 c.2)).flatten ++
              "#EXT-X-ENDLIST\n".toList))))))))) := by
    show ¬ ("#EXTINF:".toList).isPrefixOf
      ("#YT-EXT-CONDENSED-URL:BASE-URI=\"".toList ++
        (base ++ ("\",PARAMS=\"".toList ++ (List.intercalate [','] toks ++
          ("\",PREFIX=\"".toList ++ ([p1, p2] ++ ("\"\n".toList ++
            ((cs.map (fun c => condensedChunk [p1, p2] c.1 c.2)).flatten ++
              "#EXT-X-ENDLIST\n".toList))))))))
    rw [isPrefixOf_append_of_le (by decide)]
    decide
  have e0 : condensedInput base toks [p1, p2] cs =
      ('#' :: "EXTM3U\n".toList) ++ (('#' :: "YT-EXT-CONDENSED-URL:BASE-URI=\"".toList) ++
        (base ++ ("\",PARAMS=\"".toList ++ (List.intercalate [','] toks ++
          ("\",PREFIX=\"".toList ++ ([p1, p2] ++ ("\"\n".toList ++
            ((cs.map (fun c => condensedChunk [p1, p2] c.1 c.2)).flatten ++
              "#EXT-X-ENDLIST\n".toList)))))))) := by
    have e1 : condensedInput base toks [p1, p2] cs =
        "#EXTM3U\n#YT-EXT-CONDENSED-URL:BASE-URI=\"".toList ++
          (base ++ ("\",PARAMS=\"".toList ++ (List.intercalate [','] toks ++
            ("\",PREFIX=\"".toList ++ ([p1, p2] ++ ("\"\n".toList ++
              ((cs.map (fun c => condensedChunk [p1, p2] c.1 c.2)).flatten ++
                "#EXT-X-ENDLIST\n".toList))))))) := rfl
    rw [e1]
    rw [show ("#EXTM3U\n#YT-EXT-CONDENSED-URL:BASE-URI=\"".toList : Str) =
      ('#' :: "EXTM3U\n".toList) ++ ('#' :: "YT-EXT-CONDENSED-URL:BASE-URI=\"".toList)
      from by decide]
    simp [List.append_assoc]
  rw [show ("#EXTINF:".toList : Str) = '#' :: "EXTINF:".toList from rfl]
  rw [e0]
  rw [firstOcc_skip_block hpre1 (by decide)]
  rw [firstOcc_skip_block hpre2 (by decide)]
  have hXa : (base ++ ("\",PARAMS=\"".toList ++ (List.intercalate [','] toks ++
        ("\",PREFIX=\"".toList ++ ([p1, p2] ++ ("\"\n".toList ++
          ((cs.map (fun c => condensedChunk [p1, p2] c.1 c.2)).flatten ++
            "#EXT-X-ENDLIST\n".toList))))))) =
      (base ++ ("\",PARAMS=\"".toList ++ (List.intercalate [','] toks ++
        ("\",PREFIX=\"".toList ++ ([p1, p2] ++ "\"\n".toList))))) ++
      ((cs.map (fun c => condensedChunk [p1, p2] c.1 c.2)).flatten ++
        "#EXT-X-ENDLIST\n".toList) := by
    simp [List.append_assoc]
  rw [hXa]
  have hfreeA : ∀ c ∈ (base ++ ("\",PARAMS=\"".toList ++ (List.intercalate [','] toks ++
      ("\",PREFIX=\"".toList ++ ([p1, p2] ++ "\"\n".toList))))), c ≠ '#' := by
    intro c hc
    rcases List.mem_append.mp hc with h1 | h2
    · exact hbase c h1
    · rcases List.mem_append.mp h2 with h3 | h4
      · exact (by decide : ∀ x ∈ ("\",PARAMS=\"".toList : Str), x ≠ '#') c h3
      · rcases List.mem_append.mp h4 with h5 | h6
        · exact hparams c h5
        · rcases List.mem_append.mp h6 with h7 | h8
          · exact (by decide : ∀ x ∈ ("\",PREFIX=\"".toList : Str), x ≠ '#') c h7
          · rcases List.mem_cons.mp h8 with rfl | h9
            · exact hp1
            · rcases List.mem_cons.mp h9 with rfl | h10
              · exact hp2
              · exact (by decide : ∀ x ∈ ("\"\n".toList : Str), x ≠ '#') c
                  (by simpa using h10)
  rw [firstOcc_append_headfree hfreeA]
  have hoccBody : firstOcc ('#' :: "EXTINF:".toList)
      ((cs.map (fun c => condensedChunk [p1, p2] c.1 c.2)).flatten ++
        "#EXT-X-ENDLIST\n".toList) = some 0 := by
    cases cs with
    | nil => exact absurd rfl hcs
    | cons ch2 cs2 =>
      have hshape : (((ch2 :: cs2).map (fun c => condensedChunk [p1, p2] c.1 c.2)).flatten ++
          "#EXT-X-ENDLIST\n".toList) =
          "#EXTINF:".toList ++ (ch2.1 ++ ['\n'] ++ ([p1, p2] ++
            (List.intercalate ['/'] ch2.2 ++ ['\n'] ++
            ((cs2.map (fun c => condensedChunk [p1, p2] c.1 c.2)).flatten ++
              "#EXT-X-ENDLIST\n".toList)))) := by
        simp [condensedChunk, List.append_assoc]
      rw [hshape]
      refine firstOcc_of_isPrefixOf (by simp) ?_
      rw [show ('#' :: "EXTINF:".toList : Str) = "#EXTINF:".toList from rfl]
      rw [isPrefixOf_append_of_le (by decide)]
      decide
  rw [hoccBody]
  simp only [Option.map_some']
  congr 1
  simp only [List.length_append, List.length_cons, List.length_nil]
  have hx1 : ("EXTM3U\n".toList).length = 7 := by decide
  have hx2 : ("YT-EXT-CONDENSED-URL:BASE-URI=\"".toList).length = 31 := by decide
  have hx3 : ("\",PARAMS=\"".toList).length = 10 := by decide
  have hx4 : ("\",PREFIX=\"".toList).length = 10 := by decide
  have hx5 : ("\"\n".toList).length = 2 := by decide
  omega

set_option maxHeartbeats 1000000 in
theorem condensed_run (base : Str) (p1 p2 : Char) (toks : List Str)
    (cs : List (Str × List Str))
    (hbase : ∀ c ∈ base, c ≠ '"' ∧ c ≠ '#')
    (htoksne : toks ≠ [])
    (hparamsfree : ∀ c ∈ List.intercalate [','] toks, c ≠ '"' ∧ c ≠ '#')
    (hcommafree : ∀ l ∈ toks, ',' ∉ l)
    (hPne : List.intercalate [','] toks ≠ [])
    (hp1 : ∀ c ∈ "#EXTINF:\n".toList, c ≠ p1)
    (hp1q : p1 ≠ '"') (hp2q : p2 ≠ '"') (hp2h : p2 ≠ '#')
    (hcs : cs ≠ [])
    (hch : ∀ ch ∈ cs, ch.2.length = toks.length ∧
       (∀ d ∈ ch.2, ∀ c ∈ d, c ≠ '#' ∧ c ≠ '/') ∧
       (∀ c ∈ ch.1, c ≠ '#' ∧ c ≠ p1)) :
    adjust_yt_condensed_playlist (condensedInput base toks [p1, p2] cs) =
      some (condensedOutput base toks [p1, p2] cs) := by
  have hp1h : p1 ≠ '#' := (hp1 '#' (by decide)).symm
  have e1 : condensedInput base toks [p1, p2] cs =
      "#EXTM3U\n#YT-EXT-CONDENSED-URL:BASE-URI=\"".toList ++
        (base ++ ("\",PARAMS=\"".toList ++ (List.intercalate [','] toks ++
          ("\",PREFIX=\"".toList ++ ([p1, p2] ++ ("\"\n".toList ++
            ((cs.map (fun c => condensedChunk [p1, p2] c.1 c.2)).flatten ++
              "#EXT-X-ENDLIST\n".toList))))))) := rfl
  have hm0 : firstOcc "#EXTM3U\n".toList (condensedInput base toks [p1, p2] cs) =
      some 0 := by
    rw [e1]
    exact firstOcc_append_left (by decide) (by decide) _
  have hd8 : (condensedInput base toks [p1, p2] cs).drop 8 =
      "#YT-EXT-CONDENSED-URL:BASE-URI=\"".toList ++
        (base ++ ("\",PARAMS=\"".toList ++ (List.intercalate [','] toks ++
          ("\",PREFIX=\"".toList ++ ([p1, p2] ++ ("\"\n".toList ++
            ((cs.map (fun c => condensedChunk [p1, p2] c.1 c.2)).flatten ++
              "#EXT-X-ENDLIST\n".toList))))))) := by
    rw [e1, show ("#EXTM3U\n#YT-EXT-CONDENSED-URL:BASE-URI=\"".toList : Str) =
      "#EXTM3U\n".toList ++ "#YT-EXT-CONDENSED-URL:BASE-URI=\"".toList from by decide,
      List.append_assoc]
    exact drop_len_left (by decide) _
  have hd30 : (condensedInput base toks [p1, p2] cs).drop 30 =
      "BASE-URI=\"".toList ++
        (base ++ ("\",PARAMS=\"".toList ++ (List.intercalate [','] toks ++
          ("\",PREFIX=\"".toList ++ ([p1, p2] ++ ("\"\n".toList ++
            ((cs.map (fun c => condensedChunk [p1, p2] c.1 c.2)).flatten ++
              "#EXT-X-ENDLIST\n".toList))))))) := by
    rw [e1, show ("#EXTM3U\n#YT-EXT-CONDENSED-URL:BASE-URI=\"".toList : Str) =
      "#EXTM3U\n#YT-EXT-CONDENSED-URL:".toList ++ "BASE-URI=\"".toList from by decide,
      List.append_assoc]
    exact drop_len_left (by decide) _
  have hd40 : (condensedInput base toks [p1, p2] cs).drop 40 =
      base ++ ("\",PARAMS=\"".toList ++ (List.intercalate [','] toks ++
        ("\",PREFIX=\"".toList ++ ([p1, p2] ++ ("\"\n".toList ++
          ((cs.map (fun c => condensedChunk [p1, p2] c.1 c.2)).flatten ++
            "#EXT-X-ENDLIST\n".toList)))))) := by
    rw [e1]
    exact drop_len_left (by decide) _
  have hYT : ("#YT-EXT-CONDENSED-URL".toList).isPrefixOf
      ((condensedInput base toks [p1, p2] cs).drop 8) := by
    rw [hd8, isPrefixOf_append_of_le (by decide)]
    decide
  have hb1 : findFrom "BASE-URI=".toList (condensedInput base toks [p1, p2] cs) 8 =
      some 30 := by
    have h := findFrom_split hd8 (show firstOcc "BASE-URI=".toList
      "#YT-EXT-CONDENSED-URL:BASE-URI=\"".toList = some 22 from by decide) (by decide)
    rw [h]
  have hq1 : findFrom ['"'] (condensedInput base toks [p1, p2] cs) 30 = some 39 := by
    have h := findFrom_split hd30 (show firstOcc ['"'] "BASE-URI=\"".toList = some 9
      from by decide) (by decide)
    rw [h]
  have hq2 : findFrom ['"'] (condensedInput base toks [p1, p2] cs) 40 =
      some (40 + base.length) := by
    have h := findFrom_headfree hd40 (fun c hc => (hbase c hc).1)
      (show firstOcc ['"'] ("\",PARAMS=\"".toList ++ (List.intercalate [','] toks ++
        ("\",PREFIX=\"".toList ++ ([p1, p2] ++ ("\"\n".toList ++
          ((cs.map (fun c => condensedChunk [p1, p2] c.1 c.2)).flatten ++
            "#EXT-X-ENDLIST\n".toList)))))) = some 0 from
        firstOcc_of_isPrefixOf (by decide)
          (by rw [isPrefixOf_append_of_le (by decide)]; decide))
    rw [h]
    congr 1
    omega
  have hd40A : (condensedInput base toks [p1, p2] cs).drop (40 + base.length) =
      "\",PARAMS=\"".toList ++ (List.intercalate [','] toks ++
        ("\",PREFIX=\"".toList ++ ([p1, p2] ++ ("\"\n".toList ++
          ((cs.map (fun c => condensedChunk [p1, p2] c.1 c.2)).flatten ++
            "#EXT-X-ENDLIST\n".toList))))) := by
    have h1 : (condensedInput base toks [p1, p2] cs).drop (40 + base.length) =
        ((condensedInput base toks [p1, p2] cs).drop 40).drop base.length := by
      rw [List.drop_drop]
    rw [h1, hd40]
    exact drop_len_left rfl _
  have hb2 : findFrom "PARAMS=".toList (condensedInput base toks [p1, p2] cs)
      (40 + base.length) = some (42 + base.length) := by
    have h := findFrom_split hd40A (show firstOcc "PARAMS=".toList
      "\",PARAMS=\"".toList = some 2 from by decide) (by decide)
    rw [h]
    congr 1
    omega
  have hd42A : (condensedInput base toks [p1, p2] cs).drop (42 + base.length) =
      "PARAMS=\"".toList ++ (List.intercalate [','] toks ++
        ("\",PREFIX=\"".toList ++ ([p1, p2] ++ ("\"\n".toList ++
          ((cs.map (fun c => condensedChunk [p1, p2] c.1 c.2)).flatten ++
            "#EXT-X-ENDLIST\n".toList))))) := by
    have h1 : (condensedInput base toks [p1, p2] cs).drop (42 + base.length) =
        ((condensedInput base toks [p1, p2] cs).drop (40 + base.length)).drop 2 := by
      rw [List.drop_drop]
      congr 1
      omega
    rw [h1, hd40A, List.drop_append_of_le_length (by decide)]
    rfl
  have hq3 : findFrom ['"'] (condensedInput base toks [p1, p2] cs)
      (42 + base.length) = some (49 + base.length) := by
    have h := findFrom_split hd42A (show firstOcc ['"'] "PARAMS=\"".toList = some 7
      from by decide) (by decide)
    rw [h]
    congr 1
    omega
  have hd50A : (condensedInput base toks [p1, p2] cs).drop (50 + base.length) =
      List.intercalate [','] toks ++
        ("\",PREFIX=\"".toList ++ ([p1, p2] ++ ("\"\n".toList ++
          ((cs.map (fun c => condensedChunk [p1, p2] c.1 c.2)).flatten ++
            "#EXT-X-ENDLIST\n".toList)))) := by
    have h1 : (condensedInput base toks [p1, p2] cs).drop (50 + base.length) =
        ((condensedInput base toks [p1, p2] cs).drop (42 + base.length)).drop 8 := by
      rw [List.drop_drop]
      congr 1
      omega
    rw [h1, hd42A]
    exact drop_len_left (by decide) _
  have hq4 : findFrom ['"'] (condensedInput base toks [p1, p2] cs)
      (50 + base.length) =
      some (50 + base.length + (List.intercalate [','] toks).length) := by
    have h := findFrom_headfree hd50A (fun c hc => (hparamsfree c hc).1)
      (show firstOcc ['"'] ("\",PREFIX=\"".toList ++ ([p1, p2] ++ ("\"\n".toList ++
        ((cs.map (fun c => condensedChunk [p1, p2] c.1 c.2)).flatten ++
          "#EXT-X-ENDLIST\n".toList)))) = some 0 from
        firstOcc_of_isPrefixOf (by decide)
          (by rw [isPrefixOf_append_of_le (by decide)]; decide))
    rw [h]
    congr 1
    omega
  have hd50AP : (condensedInput base toks [p1, p2] cs).drop
      (50 + base.length + (List.intercalate [','] toks).length) =
      "\",PREFIX=\"".toList ++ ([p1, p2] ++ ("\"\n".toList ++
        ((cs.map (fun c => condensedChunk [p1, p2] c.1 c.2)).flatten ++
          "#EXT-X-ENDLIST\n".toList))) := by
    have h1 : (condensedInput base toks [p1, p2] cs).drop
        (50 + base.length + (List.intercalate [','] toks).length) =
        ((condensedInput base toks [p1, p2] cs).drop
          (50 + base.length)).drop (List.intercalate [','] toks).length := by
      rw [List.drop_drop]
    rw [h1, hd50A]
    exact drop_len_left rfl _
  have hb3 : findFrom "PREFIX=".toList (condensedInput base toks [p1, p2] cs)
      (50 + base.length + (List.intercalate [','] toks).length) =
      some (52 + base.length + (List.intercalate [','] toks).length) := by
    have h := findFrom_split hd50AP (show firstOcc "PREFIX=".toList
      "\",PREFIX=\"".toList = some 2 from by decide) (by decide)
    rw [h]
    congr 1
    omega
  have hd52 : (condensedInput base toks [p1, p2] cs).drop
      (52 + base.length + (List.intercalate [','] toks).length) =
      "PREFIX=\"".toList ++ ([p1, p2] ++ ("\"\n".toList ++
        ((cs.map (fun c => condensedChunk [p1, p2] c.1 c.2)).flatten ++
          "#EXT-X-ENDLIST\n".toList))) := by
    have h1 : (condensedInput base toks [p1, p2] cs).drop
        (52 + base.length + (List.intercalate [','] toks).length) =
        ((condensedInput base toks [p1, p2] cs).drop
          (50 + base.length + (List.intercalate [','] toks).length)).drop 2 := by
      rw [List.drop_drop]
      congr 1
      omega
    rw [h1, hd50AP, List.drop_append_of_le_length (by decide)]
    rfl
  have hq5 : findFrom ['"'] (condensedInput base toks [p1, p2] cs)
      (52 + base.length + (List.intercalate [','] toks).length) =
      some (59 + base.length + (List.intercalate [','] toks).length) := by
    have h := findFrom_split hd52 (show firstOcc ['"'] "PREFIX=\"".toList = some 7
      from by decide) (by decide)
    rw [h]
    congr 1
    omega
  have hd60 : (condensedInput base toks [p1, p2] cs).drop
      (60 + base.length + (List.intercalate [','] toks).length) =
      [p1, p2] ++ ("\"\n".toList ++
        ((cs.map (fun c => condensedChunk [p1, p2] c.1 c.2)).flatten ++
          "#EXT-X-ENDLIST\n".toList)) := by
    have h1 : (condensedInput base toks [p1, p2] cs).drop
        (60 + base.length + (List.intercalate [','] toks).length) =
        ((condensedInput base toks [p1, p2] cs).drop
          (52 + base.length + (List.intercalate [','] toks).length)).drop 8 := by
      rw [List.drop_drop]
      congr 1
      omega
    rw [h1, hd52]
    exact drop_len_left (by decide) _
  have hq6 : findFrom ['"'] (condensedInput base toks [p1, p2] cs)
      (60 + base.length + (List.intercalate [','] toks).length) =
      some (62 + base.length + (List.intercalate [','] toks).length) := by
    have h := findFrom_headfree hd60 (by
      intro c hc
      rcases List.mem_cons.mp hc with rfl | h2
      · exact hp1q
      · rcases List.mem_cons.mp h2 with rfl | h3
        · exact hp2q
        · simp at h3)
      (show firstOcc ['"'] ("\"\n".toList ++
        ((cs.map (fun c => condensedChunk [p1, p2] c.1 c.2)).flatten ++
          "#EXT-X-ENDLIST\n".toList)) = some 0 from
        firstOcc_of_isPrefixOf (by decide)
          (by rw [isPrefixOf_append_of_le (by decide)]; decide))
    rw [h]
    congr 1
    simp only [List.length_cons, List.length_nil]
    omega
  have hsegBase : seg (condensedInput base toks [p1, p2] cs) 40
      (40 + base.length - 40) = base := by
    rw [show 40 + base.length - 40 = base.length from by omega]
    unfold seg
    rw [hd40]
    exact take_len_left rfl _
  have hsegParams : seg (condensedInput base toks [p1, p2] cs) (50 + base.length)
      (50 + base.length + (List.intercalate [','] toks).length - (50 + base.length)) =
      List.intercalate [','] toks := by
    rw [show 50 + base.length + (List.intercalate [','] toks).length -
      (50 + base.length) = (List.intercalate [','] toks).length from by omega]
    unfold seg
    rw [hd50A]
    exact take_len_left rfl _
  have hsegPfx : seg (condensedInput base toks [p1, p2] cs)
      (60 + base.length + (List.intercalate [','] toks).length)
      (62 + base.length + (List.intercalate [','] toks).length -
        (60 + base.length + (List.intercalate [','] toks).length)) = [p1, p2] := by
    rw [show 62 + base.length + (List.intercalate [','] toks).length -
      (60 + base.length + (List.intercalate [','] toks).length) = 2 from by omega]
    unfold seg
    rw [hd60]
    exact take_len_left (a := [p1, p2]) rfl _
  have hcount := countOcc_condensed base p1 p2 toks cs
    (fun c hc => (hbase c hc).2) (fun c hc => (hparamsfree c hc).2) hp1h hp2h
    (fun ch hm => ⟨fun c hc => ((hch ch hm).2.2 c hc).1,
      fun d hd c hc => ((hch ch hm).2.1 d hd c hc).1⟩)
  have h0 := firstOcc_condensed base p1 p2 toks cs
    (fun c hc => (hbase c hc).2) (fun c hc => (hparamsfree c hc).2) hp1h hp2h hcs
  have hl40 : ("#EXTM3U\n#YT-EXT-CONDENSED-URL:BASE-URI=\"".toList).length = 40 := by
    decide
  have hl10a : ("\",PARAMS=\"".toList).length = 10 := by decide
  have hl10b : ("\",PREFIX=\"".toList).length = 10 := by decide
  have hl2a : ("\"\n".toList).length = 2 := by decide
  have hl15 : ("#EXT-X-ENDLIST\n".toList).length = 15 := by decide
  have hsplitHdr : condensedInput base toks [p1, p2] cs =
      ("#EXTM3U\n#YT-EXT-CONDENSED-URL:BASE-URI=\"".toList ++
        (base ++ ("\",PARAMS=\"".toList ++ (List.intercalate [','] toks ++
          ("\",PREFIX=\"".toList ++ ([p1, p2] ++ "\"\n".toList)))))) ++
      ((cs.map (fun c => condensedChunk [p1, p2] c.1 c.2)).flatten ++
        "#EXT-X-ENDLIST\n".toList) := by
    rw [e1]
    simp [List.append_assoc]
  have hHdrLen : ("#EXTM3U\n#YT-EXT-CONDENSED-URL:BASE-URI=\"".toList ++
      (base ++ ("\",PARAMS=\"".toList ++ (List.intercalate [','] toks ++
        ("\",PREFIX=\"".toList ++ ([p1, p2] ++ "\"\n".toList)))))).length =
      64 + base.length + (List.intercalate [','] toks).length := by
    simp only [List.length_append, List.length_cons, List.length_nil,
      hl40, hl10a, hl10b, hl2a]
    omega
  have hTake : seg (condensedInput base toks [p1, p2] cs) 0
      (64 + base.length + (List.intercalate [','] toks).length) =
      "#EXTM3U\n#YT-EXT-CONDENSED-URL:BASE-URI=\"".toList ++
        (base ++ ("\",PARAMS=\"".toList ++ (List.intercalate [','] toks ++
          ("\",PREFIX=\"".toList ++ ([p1, p2] ++ "\"\n".toList))))) := by
    unfold seg
    rw [List.drop_zero, hsplitHdr]
    exact take_len_left hHdrLen _
  have hdropPos : (condensedInput base toks [p1, p2] cs).drop
      (64 + base.length + (List.intercalate [','] toks).length) =
      (cs.map (fun c => condensedChunk [p1, p2] c.1 c.2)).flatten ++
        "#EXT-X-ENDLIST\n".toList := by
    rw [hsplitHdr]
    exact drop_len_left hHdrLen _
  have hmplen : (condensedInput base toks [p1, p2] cs).length =
      64 + base.length + (List.intercalate [','] toks).length +
        (((cs.map (fun c => condensedChunk [p1, p2] c.1 c.2)).flatten).length + 15) := by
    have h := congrArg List.length hsplitHdr
    rw [List.length_append, hHdrLen, List.length_append, hl15] at h
    omega
  have hchunkpos : ∀ ch ∈ cs, 1 ≤ (condensedChunk [p1, p2] ch.1 ch.2).length := by
    intro ch _
    simp [condensedChunk]
  have hfuel : cs.length < (condensedInput base toks [p1, p2] cs).length + 1 := by
    have h1 := length_le_flatten_map (fun c => condensedChunk [p1, p2] c.1 c.2) cs
      hchunkpos
    omega
  have hloop := chunkLoop_run (condensedInput base toks [p1, p2] cs) base p1 p2 toks
    htoksne hp1 cs ((condensedInput base toks [p1, p2] cs).length + 1)
    (64 + base.length + (List.intercalate [','] toks).length)
    ("#EXTM3U\n#YT-EXT-CONDENSED-URL:BASE-URI=\"".toList ++
      (base ++ ("\",PARAMS=\"".toList ++ (List.intercalate [','] toks ++
        ("\",PREFIX=\"".toList ++ ([p1, p2] ++ "\"\n".toList))))))
    hfuel hdropPos hch
  rw [if_neg hcs] at hloop
  have hdropEnd : (condensedInput base toks [p1, p2] cs).drop
      (64 + base.length + (List.intercalate [','] toks).length +
        ((cs.map (fun c => condensedChunk [p1, p2] c.1 c.2)).flatten).length) =
      "#EXT-X-ENDLIST\n".toList := by
    have h1 : (condensedInput base toks [p1, p2] cs).drop
        (64 + base.length + (List.intercalate [','] toks).length +
          ((cs.map (fun c => condensedChunk [p1, p2] c.1 c.2)).flatten).length) =
        ((condensedInput base toks [p1, p2] cs).drop
          (64 + base.length + (List.intercalate [','] toks).length)).drop
          ((cs.map (fun c => condensedChunk [p1, p2] c.1 c.2)).flatten).length := by
      rw [List.drop_drop]
    rw [h1, hdropPos]
    exact drop_len_left rfl _
  have hexplen := expandedFlat_length base toks p1 p2 htoksne cs
    (fun ch hm => (hch ch hm).1)
  unfold adjust_yt_condensed_playlist
  rw [hm0]
  simp only []
  simp only [Nat.zero_add]
  rw [if_neg (not_not_intro hYT)]
  rw [hb1]
  simp only []
  rw [hq1]
  simp only []
  rw [show (39 : Nat) + 1 = 40 from rfl]
  rw [hq2]
  simp only []
  rw [hsegBase]
  rw [hb2]
  simp only []
  rw [hq3]
  simp only []
  rw [show 49 + base.length + 1 = 50 + base.length from by omega]
  rw [hq4]
  simp only []
  rw [hsegParams]
  rw [hb3]
  simp only []
  rw [hq5]
  simp only []
  rw [show 59 + base.length + (List.intercalate [','] toks).length + 1 =
    60 + base.length + (List.intercalate [','] toks).length from by omega]
  rw [hq6]
  simp only []
  rw [hsegPfx]
  rw [if_neg hPne]
  rw [List.splitOn_intercalate toks ',' hcommafree htoksne]
  rw [hcount]
  rw [h0]
  simp only []
  rw [hTake]
  rw [hloop]
  simp only []
  rw [if_neg (show ¬ ((condensedInput base toks [p1, p2] cs).length <
      64 + base.length + (List.intercalate [','] toks).length +
        ((cs.map (fun c => condensedChunk [p1, p2] c.1 c.2)).flatten).length)
    from by omega)]
  rw [hdropEnd]
  rw [if_pos (show (("#EXTM3U\n#YT-EXT-CONDENSED-URL:BASE-URI=\"".toList ++
        (base ++ ("\",PARAMS=\"".toList ++ (List.intercalate [','] toks ++
          ("\",PREFIX=\"".toList ++ ([p1, p2] ++ "\"\n".toList))))) ++
      (cs.map (fun c => expandedChunk base toks c.1 c.2)).flatten) ++
      "#EXT-X-ENDLIST\n".toList).length =
      (condensedInput base toks [p1, p2] cs).length +
        cs.length * (base.length + (List.intercalate [','] toks).length) from by
    rw [List.length_append, List.length_append, hHdrLen, hl15, hexplen]
    rw [hmplen]
    omega)]
  refine congrArg some ?_
  simp [condensedOutput, List.append_assoc]

/-- C3 (amended): condensed-URI expansion.  (a) For any playlist containing
`#EXTM3U\n` whose text 8 bytes past that occurrence does not start with
`#YT-EXT-CONDENSED-URL`, the function returns a byte-equal copy of its
input.  (b) For the structured condensed family with a PREFIX of exactly 2
characters, at least one chunk, at least one parameter, and field
characters that do not collide with the scan delimiters, the expansion
succeeds and the output length is exactly
`input + chunks * (|BASE-URI| + |PARAMS|)` — the byte-count assertion
holds.  (The claim as stated fails for any other PREFIX length: each chunk
changes the length by `|BASE-URI| + |PARAMS| + 2 - |PREFIX|`, so the
assertion then aborts; see the counterexample.) -/
theorem C3_condensed_expansion :
    (∀ (mp : Str) (m : Nat),
      firstOcc "#EXTM3U\n".toList mp = some m →
      ¬ ("#YT-EXT-CONDENSED-URL".toList.isPrefixOf (mp.drop (m + 8))) →
      adjust_yt_condensed_playlist mp = some mp) ∧
    (∀ (base : Str) (p1 p2 : Char) (toks : List Str) (cs : List (Str × List Str)),
      (∀ c ∈ base, c ≠ '"' ∧ c ≠ '#') →
      toks ≠ [] →
      (∀ c ∈ List.intercalate [','] toks, c ≠ '"' ∧ c ≠ '#') →
      (∀ l ∈ toks, ',' ∉ l) →
      List.intercalate [','] toks ≠ [] →
      (∀ c ∈ "#EXTINF:\n".toList, c ≠ p1) →
      p1 ≠ '"' → p2 ≠ '"' → p2 ≠ '#' →
      cs ≠ [] →
      (∀ ch ∈ cs, ch.2.length = toks.length ∧
        (∀ d ∈ ch.2, ∀ c ∈ d, c ≠ '#' ∧ c ≠ '/') ∧
        (∀ c ∈ ch.1, c ≠ '#' ∧ c ≠ p1)) →
      adjust_yt_condensed_playlist (condensedInput base toks [p1, p2] cs) =
        some (condensedOutput base toks [p1, p2] cs) ∧
      (condensedOutput base toks [p1, p2] cs).length =
        (condensedInput base toks [p1, p2] cs).length +
          cs.length * (base.length + (List.intercalate [','] toks).length)) := by
  constructor
  · intro mp m hm hpre
    unfold adjust_yt_condensed_playlist
    rw [hm]
    simp only []
    rw [if_pos hpre]
  · intro base p1 p2 toks cs hbase htoksne hparamsfree hcommafree hPne hp1 hp1q hp2q
      hp2h hcs hch
    refine ⟨condensed_run base p1 p2 toks cs hbase htoksne hparamsfree hcommafree hPne
      hp1 hp1q hp2q hp2h hcs hch, ?_⟩
    have hexp := expandedFlat_length base toks p1 p2 htoksne cs
      (fun ch hm => (hch ch hm).1)
    simp only [condensedOutput, condensedInput, List.length_append]
    omega

set_option maxRecDepth 4000 in
/-- C3, claim as stated, refuted: this member of the condensed family
(PREFIX = "xyz", three characters) is a media playlist whose first tag
after `#EXTM3U\n` is the condensed header, yet the function aborts on
`assert(byte_count == new_len)` (the model returns `none`): the chunk
writes `|BASE-URI| + |PARAMS| + 2 - 3` net bytes, one short of the
predicted `|BASE-URI| + |PARAMS|`. -/
theorem C3_counterexample :
    condensedInput "B".toList ["p".toList] "xyz".toList [("1".toList, ["c".toList])] =
      ("#EXTM3U\n#YT-EXT-CONDENSED-URL:BASE-URI=\"B\",PARAMS=\"p\",PREFIX=\"xyz\"\n" ++
        "#EXTINF:1\nxyzc\n#EXT-X-ENDLIST\n").toList ∧
    adjust_yt_condensed_playlist
      (condensedInput "B".toList ["p".toList] "xyz".toList [("1".toList, ["c".toList])]) =
      none := by
  constructor
  · decide
  · decide

set_option maxRecDepth 4000 in
/-- Witness for C3 (amended) at a two-chunk, two-parameter playlist with
the 2-character PREFIX "ab", and at a concrete non-condensed playlist. -/
theorem C3_witness :
    (∀ c ∈ ("http://b".toList : Str), c ≠ '"' ∧ c ≠ '#') ∧
    (adjust_yt_condensed_playlist
        (condensedInput "http://b".toList ["p1".toList, "p2".toList] ['a', 'b']
          [("1.0".toList, ["C1".toList, "C2".toList]),
           ("2.0".toList, ["D1".toList, "D2".toList])]) =
      some (condensedOutput "http://b".toList ["p1".toList, "p2".toList] ['a', 'b']
          [("1.0".toList, ["C1".toList, "C2".toList]),
           ("2.0".toList, ["D1".toList, "D2".toList])]) ∧
      (condensedOutput "http://b".toList ["p1".toList, "p2".toList] ['a', 'b']
          [("1.0".toList, ["C1".toList, "C2".toList]),
           ("2.0".toList, ["D1".toList, "D2".toList])]).length =
        (condensedInput "http://b".toList ["p1".toList, "p2".toList] ['a', 'b']
          [("1.0".toList, ["C1".toList, "C2".toList]),
           ("2.0".toList, ["D1".toList, "D2".toList])]).length +
          2 * ("http://b".toList.length +
            (List.intercalate [','] ["p1".toList, "p2".toList]).length)) ∧
    adjust_yt_condensed_playlist "#EXTM3U\n#EXT-X-VERSION:3\nhello\n".toList =
      some "#EXTM3U\n#EXT-X-VERSION:3\nhello\n".toList :=
  ⟨by decide,
   C3_condensed_expansion.2 "http://b".toList 'a' 'b' ["p1".toList, "p2".toList]
     [("1.0".toList, ["C1".toList, "C2".toList]),
      ("2.0".toList, ["D1".toList, "D2".toList])]
     (by decide) (by decide) (by decide) (by decide) (by decide) (by decide)
     (by decide) (by decide) (by decide) (by decide) (by decide),
   C3_condensed_expansion.1 "#EXTM3U\n#EXT-X-VERSION:3\nhello\n".toList 0
     (by decide) (by decide)⟩
